import Mathlib

/-!
# Verification of the owlcms/tracker-core competition hub

Shallow embedding of `src/competition-hub.js`, `src/websocket-server.js` and
`src/protocol/protocol-config.js` (owlcms/tracker-core), with theorems settling
the behavioural claims about the hub.

Modelling conventions:
* JavaScript numbers appearing in payloads (attempt weights, team ids, counters,
  timestamps) are modelled as `Int`/`Nat`; the repository only manipulates them
  through sign tests, comparison, `Math.abs` and `String(...)`, which agree with
  integer semantics on integer inputs.
* JS `undefined` is `none`; JS `null` is the explicit value `JsLite.null`; both
  are falsy.  `Option` fields of a payload record model presence of the key.
* `Date.now()` is modelled by an explicit `now : Nat` argument.
* Logging, `broadcast` to browser subscribers, and the learning-mode capture are
  side-effect-free for hub state and are not modelled; `EventEmitter` emissions
  are modelled as an explicit event list returned by each operation.
-/

namespace TrackerCore

/-- A JS primitive appearing as an attempt `value` (number or string). -/
inductive JsPrim
  | num (n : Int)
  | str (s : String)
  deriving Repr, DecidableEq

/-- `String(v)` on a primitive. -/
def JsPrim.toStr : JsPrim → String
  | .num n => toString n
  | .str s => s

/-- One element of a raw `sattempts` / `cattempts` array, covering the shapes
`_normalizeAttemptValue` distinguishes: `null`/`undefined`; a V2 object with a
`value` key (and optional `status`); an already-normalized
`{stringValue, liftStatus}` object; a plain number; any other value reaching the
final `String(v)` branch (modelled as a string). -/
inductive AttemptVal
  | jnull
  | v2 (value : Option JsPrim) (status : Option String)
  | norm (stringValue : String) (liftStatus : String)
  | num (n : Int)
  | str (s : String)
  deriving Repr, DecidableEq

/-- A JS value stored in an athlete record field. -/
inductive JsLite
  | null
  | num (n : Int)
  | str (s : String)
  | attArr (xs : List AttemptVal)
  deriving Repr, DecidableEq

/-- JS truthiness of a defined value (arrays are objects, hence truthy). -/
def JsLite.truthy : JsLite → Bool
  | .null => false
  | .num n => n != 0
  | .str s => s != ""
  | .attArr _ => true

/-- Truthiness of a possibly-undefined value. -/
def otruthy : Option JsLite → Bool
  | none => false
  | some v => v.truthy

/-- Association-list lookup (JS property read; `none` = `undefined`). -/
def alGet {α : Type} (l : List (String × α)) (k : String) : Option α :=
  (l.find? (fun p => p.1 = k)).map (fun p => p.2)

/-- Association-list update (JS property write: replace in place or append). -/
def alSet {α : Type} (l : List (String × α)) (k : String) (v : α) : List (String × α) :=
  if l.any (fun p => p.1 = k) then
    l.map (fun p => if p.1 = k then (k, v) else p)
  else
    l ++ [(k, v)]

/-- An athlete record: a JS object restricted to the field values the hub reads. -/
def JsObj := List (String × JsLite)

instance : DecidableEq JsObj := by
  unfold JsObj; infer_instance

instance : Repr JsObj := by
  unfold JsObj; infer_instance

def jget (o : JsObj) (k : String) : Option JsLite := alGet o k

def jset (o : JsObj) (k : String) (v : JsLite) : JsObj := alSet o k v

/-- `Object.assign(a, b)` / `{...a, ...b}`: every key of `b` is written onto `a`. -/
def jsMergeObj (a b : JsObj) : JsObj :=
  b.foldl (fun acc p => jset acc p.1 p.2) a

/-- Property read through the `??` operator: `null` is skipped like `undefined`. -/
def jgetNN (o : JsObj) (k : String) : Option JsLite :=
  match jget o k with
  | some .null => none
  | x => x

/-- String field read used where the source does `(flat.f || '')` on a string field. -/
def getStrOr (o : JsObj) (k : String) (d : String) : String :=
  match jget o k with
  | some (.str s) => if s = "" then d else s
  | _ => d

/-- `String.trim` modelled on char lists (the built-in uses byte positions the
kernel cannot evaluate). -/
def jsTrim (s : String) : String :=
  String.mk (((s.toList.dropWhile Char.isWhitespace).reverse.dropWhile
    Char.isWhitespace).reverse)

/-- `String.toUpperCase` modelled on char lists. -/
def jsToUpper (s : String) : String :=
  String.mk (s.toList.map Char.toUpper)

/-- Numeric value of a digit list. -/
def digitsToNat (ds : List Char) : Nat :=
  ds.foldl (fun n c => n * 10 + (c.toNat - '0'.toNat)) 0

/-- Global, non-overlapping, left-to-right replacement of a char pattern
(structural fuel makes it kernel-evaluable). -/
def replaceFuel (t r : List Char) : Nat → List Char → List Char
  | 0, cs => cs
  | _ + 1, [] => []
  | fuel + 1, c :: cs =>
      if t.isPrefixOf (c :: cs) then
        r ++ replaceFuel t r fuel ((c :: cs).drop t.length)
      else
        c :: replaceFuel t r fuel cs

/-- JS `String.prototype.replace` with a global literal pattern. -/
def jsReplaceAll (s target repl : String) : String :=
  if target = "" then s
  else String.mk (replaceFuel target.toList repl.toList s.length s.toList)

/-- JS `parseFloat`, restricted to integer-valued results: trims, accepts an
optional sign, then the longest digit prefix; `none` models `NaN`. -/
def jsParseFloat (s : String) : Option Int :=
  let cs := (jsTrim s).toList
  let signed : Bool × List Char :=
    match cs with
    | '-' :: r => (true, r)
    | '+' :: r => (false, r)
    | r => (false, r)
  let ds := signed.2.takeWhile Char.isDigit
  if ds.isEmpty then none
  else
    let n : Int := Int.ofNat (digitsToNat ds)
    some (if signed.1 then -n else n)

/-- JS `Number(...)` on a trimmed non-empty string, restricted to integers:
an optional sign followed only by digits. -/
def jsNumber (s : String) : Option Int :=
  let signed : Bool × List Char :=
    match s.toList with
    | '-' :: r => (true, r)
    | '+' :: r => (false, r)
    | r => (false, r)
  if signed.2.isEmpty || !signed.2.all Char.isDigit then none
  else
    let n : Int := Int.ofNat (digitsToNat signed.2)
    some (if signed.1 then -n else n)

/-- `_normalizeAttemptValue(v)` of `competition-hub.js` (always yields a
`{stringValue, liftStatus}` object, modelled by the `.norm` constructor). -/
def normalizeAttemptValue : AttemptVal → AttemptVal
  | .jnull => .norm "-" "empty"
  | .v2 value status =>
      match value with
      | none => .norm "-" "empty"
      | some v =>
          let st := match status with
                    | none => "request"
                    | some s => if s = "" then "request" else s
          .norm v.toStr st
  | .norm sv ls => .norm sv ls
  | .num n =>
      if n = 0 then .norm "-" "empty"
      else if n > 0 then .norm (toString n) "good"
      else .norm (toString n.natAbs) "bad"
  | .str s =>
      let str := jsTrim s
      if str = "" || str = "-" then .norm "-" "empty"
      else
        match jsParseFloat (jsReplaceAll (jsReplaceAll str "(" "") ")" "") with
        | some n =>
            let isFail := str.toList.contains '(' || decide (n < 0)
            .norm (toString n.natAbs) (if isFail then "bad" else "good")
        | none => .norm str "empty"

/-- Loop body of `_computeBestLift`: keep the running numeric maximum over
entries with `liftStatus == 'good'` and a truthy `stringValue`; `none` models
the `null` returned when no good lift exists. -/
def bestLiftFold (best : Option Int) (a : AttemptVal) : Option Int :=
  match a with
  | .norm sv ls =>
      if ls = "good" && sv != "" then
        match jsParseFloat sv with
        | some val =>
            match best with
            | none => some val
            | some b => if val > b then some val else some b
        | none => best
      else best
  | _ => best

/-- `_computeBestLift(attempts)` as the fold of its loop body. -/
def computeBestLift (attempts : List AttemptVal) : Option Int :=
  attempts.foldl bestLiftFold none

/-- `_normalizeAthleteKey(key)`. -/
def normalizeAthleteKey : Option JsLite → Option String
  | none => none
  | some .null => none
  | some (.num n) => some (toString n)
  | some (.str s) => let t := jsTrim s; if t = "" then none else some t
  | some (.attArr _) => none

/-- `_getTeamNameById(teamId)` against the hub's `databaseTeamMap`. -/
def getTeamNameById (teamMap : List (String × String)) : Option JsLite → Option String
  | none => none
  | some .null => none
  | some (.num n) => alGet teamMap (toString n)
  | some (.str s) => alGet teamMap s
  | some (.attArr _) => none

/-- One element of a `sessionAthletes` payload: either the V2 enriched shape
`{athlete, displayInfo}` or an already-flat record. -/
inductive SessionEntry
  | wrapped (athlete : JsObj) (displayInfo : Option JsObj)
  | flatE (o : JsObj)
  deriving Repr, DecidableEq

/-- Unwrap a `sessionAthletes` entry: `{...entry.athlete}` overwritten by
`displayInfo` in the V2 shape, the record itself otherwise.  This is the
unwrapping step shared by `_flattenSessionAthletes` and
`_mergeSessionAthletesIntoDatabase`. -/
def unwrapSessionEntry : SessionEntry → JsObj
  | .wrapped a (some d) => jsMergeObj a d
  | .wrapped a none => a
  | .flatE o => o

/-- `_flattenSessionAthletes` fullName fallback. -/
def fullNameStep (flat : JsObj) : JsObj :=
  if !(otruthy (jget flat "fullName")) &&
     (otruthy (jget flat "firstName") || otruthy (jget flat "lastName")) then
    let lastName := jsToUpper (getStrOr flat "lastName" "")
    let firstName := getStrOr flat "firstName" ""
    let fullName :=
      if lastName != "" && firstName != "" then lastName ++ ", " ++ firstName
      else if lastName != "" then lastName else firstName
    jset flat "fullName" (.str fullName)
  else flat

/-- `_flattenSessionAthletes` teamName fallback. -/
def teamNameStep (teamMap : List (String × String)) (flat : JsObj) : JsObj :=
  if !(otruthy (jget flat "teamName")) && otruthy (jget flat "team") then
    jset flat "teamName"
      (match getTeamNameById teamMap (jget flat "team") with
       | some n => .str n
       | none => .null)
  else flat

/-- `_flattenSessionAthletes` category fallback. -/
def categoryStep (flat : JsObj) : JsObj :=
  if !(otruthy (jget flat "category")) && otruthy (jget flat "categoryCode") then
    match jget flat "categoryCode" with
    | some v => jset flat "category" v
    | none => flat
  else flat

/-- `_flattenSessionAthletes` yearOfBirth fallback. -/
def yearOfBirthStep (flat : JsObj) : JsObj :=
  if !(otruthy (jget flat "yearOfBirth")) && otruthy (jget flat "fullBirthDate") then
    let year := (getStrOr flat "fullBirthDate" "").take 4
    if year != "" && year.length = 4 then jset flat "yearOfBirth" (.str year) else flat
  else flat

/-- `_flattenSessionAthletes` element-wise normalization of `sattempts`
(`if (Array.isArray(flat.sattempts)) flat.sattempts = flat.sattempts.map(...)`). -/
def sattemptsStep (flat : JsObj) : JsObj :=
  match jget flat "sattempts" with
  | some (.attArr xs) => jset flat "sattempts" (.attArr (xs.map normalizeAttemptValue))
  | _ => flat

/-- `_flattenSessionAthletes` element-wise normalization of `cattempts`. -/
def cattemptsStep (flat : JsObj) : JsObj :=
  match jget flat "cattempts" with
  | some (.attArr xs) => jset flat "cattempts" (.attArr (xs.map normalizeAttemptValue))
  | _ => flat

/-- `_flattenSessionAthletes` element-wise attempt normalization of
`sattempts` and `cattempts`, in source order. -/
def attemptsStep (flat : JsObj) : JsObj :=
  cattemptsStep (sattemptsStep flat)

/-- `_flattenSessionAthletes` bestSnatch fallback (only when the field is
undefined or the string `"-"`). -/
def bestSnatchStep (flat : JsObj) : JsObj :=
  if (jget flat "bestSnatch" = none || jget flat "bestSnatch" = some (.str "-")) then
    match jget flat "sattempts" with
    | some (.attArr xs) =>
        jset flat "bestSnatch"
          (match computeBestLift xs with
           | some b => .num b
           | none => .null)
    | _ => flat
  else flat

/-- `_flattenSessionAthletes` bestCleanJerk fallback. -/
def bestCleanJerkStep (flat : JsObj) : JsObj :=
  if (jget flat "bestCleanJerk" = none || jget flat "bestCleanJerk" = some (.str "-")) then
    match jget flat "cattempts" with
    | some (.attArr xs) =>
        jset flat "bestCleanJerk"
          (match computeBestLift xs with
           | some b => .num b
           | none => .null)
    | _ => flat
  else flat

/-- `_flattenSessionAthletes` bestSnatch/bestCleanJerk fallbacks, in source
order. -/
def bestLiftsStep (flat : JsObj) : JsObj :=
  bestCleanJerkStep (bestSnatchStep flat)

/-- The field-fallback part of the `_flattenSessionAthletes` loop body, in
source order. -/
def flattenFields (teamMap : List (String × String)) (flat : JsObj) : JsObj :=
  bestLiftsStep (attemptsStep (yearOfBirthStep (categoryStep
    (teamNameStep teamMap (fullNameStep flat)))))

/-- The key-dependent tail of the loop body: classname fallback and
`athleteKey`. -/
def classnameStep (currentAthleteKey : Option String) (key : String) (flat : JsObj) : JsObj :=
  if jget flat "classname" = none && currentAthleteKey.isSome &&
     currentAthleteKey = some key then
    jset flat "classname" (.str "current")
  else flat

/-- classname fallback followed by the unconditional `athleteKey` write. -/
def finishEntry (currentAthleteKey : Option String) (key : String) (flat : JsObj) : JsObj :=
  jset (classnameStep currentAthleteKey key flat) "athleteKey" (.str key)

/-- Body of the `_flattenSessionAthletes` loop for one non-null entry: unwrap,
apply the fallback computations, normalize attempts, and key the record.
Returns `none` when the record has no usable key (the `continue`). -/
def flattenEntry (teamMap : List (String × String)) (currentAthleteKey : Option String)
    (entry : SessionEntry) : Option (String × JsObj) :=
  let flat := flattenFields teamMap (unwrapSessionEntry entry)
  match normalizeAthleteKey ((jgetNN flat "key").orElse (fun _ => (jgetNN flat "id").orElse
      (fun _ => jgetNN flat "athleteKey"))) with
  | none => none
  | some key => some (key, finishEntry currentAthleteKey key flat)

/-- `_flattenSessionAthletes(sessionAthletes, currentAthleteKey)`: returns the
`athletesByKey` map and the `athletesArray` list. `none` entries are the JS
falsy entries skipped by the loop. -/
def flattenSessionAthletes (teamMap : List (String × String))
    (sessionAthletes : Option (List (Option SessionEntry)))
    (currentAthleteKey : Option String) :
    List (String × JsObj) × List JsObj :=
  match sessionAthletes with
  | none => ([], [])
  | some entries =>
      entries.foldl
        (fun acc oe =>
          match oe with
          | none => acc
          | some e =>
              match flattenEntry teamMap currentAthleteKey e with
              | none => acc
              | some (k, flat) => (alSet acc.1 k flat, acc.2 ++ [flat]))
        ([], [])

/-! ## Athlete enrichment (`getCurrentAthlete` path) -/

/-- `_parseNumeric(value)` (integer-valued inputs). -/
def parseNumeric : Option JsLite → Option Int
  | none => none
  | some .null => none
  | some (.num n) => some n
  | some (.str s) =>
      let trimmed := jsTrim s
      if trimmed = "" then none else jsNumber trimmed
  | some (.attArr _) => none

/-- `_extractWeight(athlete, fieldPrefix)`: priority
`change2 > change1 > declaration > automaticProgression`.  (The source's
`fieldPrefix` argument is named `fieldPref` here.) -/
def extractWeight (athlete : JsObj) (fieldPref : String) : Option Int :=
  match parseNumeric (jget athlete (fieldPref ++ "Change2")) with
  | some change2 => some change2
  | none =>
    match parseNumeric (jget athlete (fieldPref ++ "Change1")) with
    | some change1 => some change1
    | none =>
      match parseNumeric (jget athlete (fieldPref ++ "Declaration")) with
      | some declaration => some declaration
      | none => parseNumeric (jget athlete (fieldPref ++ "AutomaticProgression"))

/-- Result of `_enrichAthleteData`: the merged record plus the computed fields
appended to it (`currentWeight`, `currentAttempt`, `currentLiftType`,
`attemptsDone`). -/
structure EnrichedAthlete where
  record : JsObj
  currentWeight : Option Int
  currentAttempt : Int
  currentLiftType : String
  attemptsDone : Int
  deriving Repr, DecidableEq

/-- `baseAthlete.attemptsDone || 0`: a missing, null, zero or non-numeric
`attemptsDone` falls back to `0`. -/
def attemptsDoneOf (athlete : JsObj) : Int :=
  match jget athlete "attemptsDone" with
  | some (.num n) => if n = 0 then 0 else n
  | _ => 0

/-- `_enrichAthleteData(athlete, update)` for a record already flattened by
`_flattenSessionAthletes` (the lookup result of `_resolveAthleteByKey`); such a
record has no nested `athlete` object, so the `else` branch copying the flat
record is taken. -/
def enrichAthleteData (athlete : JsObj) : EnrichedAthlete :=
  let baseAthlete := athlete
  let attemptsDone := attemptsDoneOf baseAthlete
  let currentLiftType := if attemptsDone < 3 then "snatch" else "cleanJerk"
  -- JS `%` is the truncated remainder, `Int.tmod` in Lean
  let currentAttemptNum : Int := attemptsDone.tmod 3 + 1
  let fieldPref :=
    (if currentLiftType = "snatch" then "snatch" else "cleanJerk") ++ toString currentAttemptNum
  let currentWeight := extractWeight baseAthlete fieldPref
  { record := baseAthlete
    currentWeight := currentWeight
    currentAttempt := currentAttemptNum
    currentLiftType := currentLiftType
    attemptsDone := attemptsDone }

/-! ## Translation store (`setTranslations` / `getTranslations`) -/

/-- One locale's translation map. -/
def Tmap := List (String × String)

instance : DecidableEq Tmap := by
  unfold Tmap; infer_instance

instance : Repr Tmap := by
  unfold Tmap; infer_instance

/-- `decodeHTMLEntities(str)`: sequential global replacement with the fixed
entity table, in source order. -/
def decodeHTMLEntities (s : String) : String :=
  let table : List (String × String) :=
    [("&amp;", "&"), ("&lt;", "<"), ("&gt;", ">"), ("&quot;", "\""),
     ("&apos;", "'"), ("&#39;", "'"), ("&nbsp;", " "), ("&ndash;", "–"),
     ("&mdash;", "—"), ("&hellip;", "…"), ("&copy;", "©"), ("&reg;", "®"),
     ("&trade;", "™")]
  table.foldl (fun acc p => jsReplaceAll acc p.1 p.2) s

/-- `{...a, ...b}` on translation maps: every key of `b` written onto `a`. -/
def tmerge (a b : Tmap) : Tmap :=
  b.foldl (fun acc p => alSet acc p.1 p.2) a

/-- The whole translation store, keyed by locale. -/
def TrStore := List (String × Tmap)

instance : DecidableEq TrStore := by
  unfold TrStore; infer_instance

instance : Repr TrStore := by
  unfold TrStore; infer_instance

/-- `locale.includes('-')` (strings are reasoned about as their char lists). -/
def isRegionalLocale (locale : String) : Bool := locale.toList.contains '-'

/-- `locale.split('-')[0]`: the segment before the first `-` (the whole string
when there is none). -/
def baseOfLocale (locale : String) : String :=
  String.mk (locale.toList.takeWhile (fun c => c ≠ '-'))

/-- `existingLocale.startsWith(locale + '-')`. -/
def startsWithBaseDash (base s : String) : Bool :=
  (base.toList ++ ['-']).isPrefixOf s.toList

/-- `setTranslations(locale, translationMap)` on the `translations` store:
decode values, merge a regional variant over its base when the base is present,
store, and when a base locale arrives re-merge every stored `locale-*` variant
over the new base map. -/
def setTranslations (store : TrStore) (locale : String) (translationMap : Tmap) : TrStore :=
  let decodedMap : Tmap := translationMap.map (fun p => (p.1, decodeHTMLEntities p.2))
  let baseLocale : Option String :=
    if isRegionalLocale locale then some (baseOfLocale locale) else none
  let mergedMap : Tmap :=
    match baseLocale with
    | some b =>
        match alGet store b with
        | some baseTranslations => tmerge baseTranslations decodedMap
        | none => decodedMap
    | none => decodedMap
  let store := alSet store locale mergedMap
  match baseLocale with
  | some _ => store
  | none =>
      -- base locale: update all regional variants `locale-*`
      store.map (fun p =>
        if startsWithBaseDash locale p.1 then (p.1, tmerge decodedMap p.2) else p)

/-- `getTranslations({locale})`: exact locale, then base language, then `"en"`,
then the empty map. -/
def getTranslations (store : TrStore) (locale : String) : Tmap :=
  match alGet store locale with
  | some m => m
  | none =>
      let viaBase : Option Tmap :=
        if isRegionalLocale locale then alGet store (baseOfLocale locale) else none
      match viaBase with
      | some m => m
      | none =>
          if locale ≠ "en" then
            match alGet store "en" with
            | some m => m
            | none => []
          else []

/-! ## Hub state (`CompetitionHub` fields used by the claims) -/

/-- Per-FOP session status (`fopSessionStatus[fop]`). -/
structure SessionStatus where
  isDone : Bool
  sessionName : String
  lastActivity : Nat
  deriving Repr, DecidableEq

/-- Per-FOP merged snapshot (`fopUpdates[fop]`), restricted to the fields the
claims read; the order-array resolution (`startOrderAthletes` /
`liftingOrderAthletes`) is not examined by any claim and is omitted. -/
structure FopSnapshot where
  lastUpdate : Nat
  lastDataUpdate : Nat
  currentAthleteKey : Option JsLite
  sessionAthletes : Option (List (Option SessionEntry))
  sessionAthletesByKey : List (String × JsObj)
  deriving Repr, DecidableEq

/-- `databaseState`. -/
structure DbState where
  athletes : List JsObj
  databaseChecksum : Option String
  initialized : Bool
  lastUpdate : Nat
  deriving Repr, DecidableEq

/-- Hub state: the `CompetitionHub` fields involved in the claims. -/
structure HubState where
  databaseState : Option DbState
  fopUpdates : List (String × FopSnapshot)
  fopSessionStatus : List (String × SessionStatus)
  fopVersions : List (String × Nat)
  translations : TrStore
  translationsReady : Bool
  isLoadingDatabase : Option Nat
  lastDatabaseLoad : Nat
  databaseRequested : Nat
  lastDatabaseChecksum : Option String
  hasConfirmedFops : Bool
  messagesReceived : Nat
  subscribers : List String
  databaseTeamMap : List (String × String)
  deriving Repr, DecidableEq

/-- The freshly constructed hub. -/
def initialHub : HubState :=
  { databaseState := none
    fopUpdates := []
    fopSessionStatus := []
    fopVersions := []
    translations := []
    translationsReady := false
    isLoadingDatabase := none
    lastDatabaseLoad := 0
    databaseRequested := 0
    lastDatabaseChecksum := none
    hasConfirmedFops := false
    messagesReceived := 0
    subscribers := []
    databaseTeamMap := [] }

/-- The sanitized inbound payload of an `update`/`timer`/`decision` frame,
restricted to the keys the modelled operations read.  `none` means the key is
absent; `_sanitizeInboundPayload`'s JSON-string parsing is modelled by taking
the already-parsed values. -/
structure Payload where
  fop : Option String := none
  fopName : Option String := none
  uiEvent : Option String := none
  breakType : Option String := none
  sessionName : Option String := none
  athleteTimerEventType : Option String := none
  decisionEventType : Option String := none
  currentAthleteKey : Option JsLite := none
  sessionAthletes : Option (List (Option SessionEntry)) := none
  updateKey : Option String := none
  deriving Repr, DecidableEq

/-- Hub-level result object returned by `handleOwlcmsMessage` /
`handleFullCompetitionData`. -/
structure HubResult where
  accepted : Bool := false
  reason : Option String := none
  retry : Bool := false
  needsData : Bool := false
  missing : List String := []
  cached : Bool := false
  deriving Repr, DecidableEq

/-- `a || d` on string-valued fields. -/
def jsStrOr (a : Option String) (d : String) : String :=
  match a with
  | some s => if s = "" then d else s
  | none => d

/-- Truthiness of a string field. -/
def jsStrTruthy (a : Option String) : Bool :=
  match a with
  | some s => s != ""
  | none => false

/-- `params.fop || params.fopName || 'A'`. -/
def resolveFopName (p : Payload) : String :=
  jsStrOr p.fop (jsStrOr p.fopName "A")

/-- `_incrementFopVersion(fopName)`. -/
def incrementFopVersion (st : HubState) (fopName : String) : HubState :=
  { st with
      fopVersions := alSet st.fopVersions fopName ((alGet st.fopVersions fopName).getD 0 + 1) }

/-- `getFopStateVersion({fopName})`. -/
def getFopStateVersion (st : HubState) (fopName : String) : Nat :=
  (alGet st.fopVersions fopName).getD 0

/-- `!this.databaseState || !this.databaseState.athletes ||
this.databaseState.athletes.length === 0`: the database-missing test used at
the end of `handleOwlcmsMessage` and in `getMissingPreconditions`. -/
def databaseMissing (st : HubState) : Bool :=
  match st.databaseState with
  | none => true
  | some db => db.athletes.isEmpty

/-- `isReady()`. -/
def isReady (st : HubState) : Bool :=
  (match st.databaseState with
   | some db => !db.athletes.isEmpty
   | none => false) && st.translationsReady

/-- `getMissingPreconditions()`. -/
def getMissingPreconditions (st : HubState) : List String :=
  (match st.databaseState with
   | some db => if db.athletes.isEmpty then ["database"] else []
   | none => ["database"]) ++
  (if st.translationsReady then [] else ["translations_zip"])

/-- `getSessionStatus({fopName})`. -/
def getSessionStatus (st : HubState) (fopName : String) : SessionStatus :=
  (alGet st.fopSessionStatus fopName).getD
    { isDone := false, sessionName := "", lastActivity := 0 }

/-- `isSessionDone({fopName})`. -/
def isSessionDone (st : HubState) (fopName : String) : Bool :=
  match alGet st.fopSessionStatus fopName with
  | some status => status.isDone
  | none => false

/-- `updateSessionStatus(fopName, params)` on one FOP's status.  The two extra
booleans report the hub's edge notifications: the completion notification
(guarded by `if (!wasSessionDone)`) and the reopen notification (the reopen
branch itself). -/
def updateSessionStatus (prev : Option SessionStatus) (now : Nat) (p : Payload) :
    SessionStatus × Bool × Bool :=
  let sessionName := jsStrOr p.sessionName ""
  let breakType := jsStrOr p.breakType ""
  let status := prev.getD { isDone := false, sessionName := "", lastActivity := now }
  let wasSessionDone := status.isDone
  if p.uiEvent = some "GroupDone" || breakType = "GROUP_DONE" then
    ({ isDone := true, sessionName := sessionName, lastActivity := now },
     !wasSessionDone, false)
  else if status.isDone &&
          (jsStrTruthy p.uiEvent || jsStrTruthy p.athleteTimerEventType ||
           jsStrTruthy p.decisionEventType) then
    ({ isDone := false, sessionName := sessionName, lastActivity := now }, false, true)
  else if !status.isDone then
    ({ status with sessionName := sessionName, lastActivity := now }, false, false)
  else
    (status, false, false)

/-- Database-side key of an athlete record (`_normalizeAthleteKey(athleteData.key)`). -/
def dbKeyOf (o : JsObj) : Option String := normalizeAthleteKey (jget o "key")

/-- `_mergeSessionAthletesIntoDatabase(fopName)`: create-or-update database
athletes by key from the FOP's raw `sessionAthletes`. -/
def mergeSessionAthletesIntoDatabase (st : HubState) (now : Nat) (fopName : String) :
    HubState :=
  match alGet st.fopUpdates fopName with
  | none => st
  | some update =>
      match update.sessionAthletes with
      | none => st
      | some entries =>
          if entries.isEmpty then st
          else
            -- `_ensureDatabaseContainers`
            let db : DbState :=
              (st.databaseState).getD
                { athletes := [], databaseChecksum := none,
                  initialized := false, lastUpdate := now }
            let step := fun (acc : List JsObj × Bool) (oe : Option SessionEntry) =>
              match oe with
              | none => acc
              | some e =>
                  let athleteData := unwrapSessionEntry e
                  match dbKeyOf athleteData with
                  | none => acc
                  | some key =>
                      match acc.1.find? (fun a => dbKeyOf a = some key) with
                      | some existing =>
                          let merged := jsMergeObj existing athleteData
                          if merged = existing then acc
                          else
                            (acc.1.map (fun a => if dbKeyOf a = some key then merged else a),
                             true)
                      | none => (acc.1 ++ [athleteData], true)
            let (athletes, changed) := entries.foldl step (db.athletes, false)
            if changed then
              { st with
                  databaseState := some { db with athletes := athletes, initialized := true,
                                                  lastUpdate := now } }
            else
              { st with databaseState := some db }

/-- The merged FOP snapshot built by `handleOwlcmsMessage` (the spread-merge
into `fopUpdates[fopName]`, the stale `currentAthleteKey` deletion, and the
`_rebuildDerivedState` flattening). -/
def foldFopSnapshot (st : HubState) (now : Nat) (params : Payload)
    (messageType : String) (fopName : String) : FopSnapshot :=
  let prev := alGet st.fopUpdates fopName
  let isTimerOrDecision := messageType = "timer" || messageType = "decision"
  let prevDataUpdate :=
    match prev with
    | some s => if s.lastDataUpdate = 0 then now else s.lastDataUpdate
    | none => now
  -- spread-merge of `currentAthleteKey`, then the stale-key deletion
  let mergedKey : Option JsLite :=
    match params.currentAthleteKey with
    | some v => some v
    | none => (prev.map (fun s => s.currentAthleteKey)).getD none
  let mergedKey :=
    if otruthy params.currentAthleteKey then mergedKey
    else if otruthy mergedKey then none
    else mergedKey
  let mergedSessionAthletes :=
    match params.sessionAthletes with
    | some sa => some sa
    | none => (prev.map (fun s => s.sessionAthletes)).getD none
  let snap : FopSnapshot :=
    { lastUpdate := now
      lastDataUpdate := if isTimerOrDecision then prevDataUpdate else now
      currentAthleteKey := mergedKey
      sessionAthletes := mergedSessionAthletes
      sessionAthletesByKey := [] }
  -- `_rebuildDerivedState(fopName)` (session-athlete flattening part)
  let currentKeyNorm := normalizeAthleteKey snap.currentAthleteKey
  let flat := flattenSessionAthletes st.databaseTeamMap snap.sessionAthletes currentKeyNorm
  { snap with sessionAthletesByKey := flat.1 }

/-- The body of `handleOwlcmsMessage` after the two early-return gates. -/
def handleOwlcmsMessageMain (st : HubState) (now : Nat) (params : Payload)
    (messageType : String) : HubState × HubResult :=
  let fopName := resolveFopName params
  let st := { st with hasConfirmedFops := true }
  let snap := foldFopSnapshot st now params messageType fopName
  let st := { st with fopUpdates := alSet st.fopUpdates fopName snap }
  let st := incrementFopVersion st fopName
  let st := mergeSessionAthletesIntoDatabase st now fopName
  let statusResult := updateSessionStatus (alGet st.fopSessionStatus fopName) now params
  let st := { st with fopSessionStatus := alSet st.fopSessionStatus fopName statusResult.1 }
  if databaseMissing st then
    ({ st with databaseRequested := now },
     { accepted := false, needsData := true, reason := some "missing_database",
       missing := ["database"] })
  else
    (st, { accepted := true })

/-- `handleOwlcmsMessage(params, messageType)`.  Logging, the browser
broadcast and the legacy `state` mirror have no effect on the modelled state
and are omitted. -/
def handleOwlcmsMessage (st : HubState) (now : Nat) (params : Payload)
    (messageType : String) : HubState × HubResult :=
  let st := { st with messagesReceived := st.messagesReceived + 1 }
  if st.isLoadingDatabase.isSome then
    (st, { accepted := false, reason := some "database_loading", retry := true })
  else if st.databaseRequested > 0 && now - st.databaseRequested < 1000 then
    (st, { accepted := false, reason := some "waiting_for_database", retry := true })
  else
    handleOwlcmsMessageMain st now params messageType

/-- Parsed full-database input (`parseV2Database` is modelled as already applied:
the claims do not depend on the V2 parsing itself). -/
structure DbInput where
  athletes : List JsObj := []
  hasCompetitionInfo : Bool := false
  checksum : Option String := none
  teams : List (String × String) := []
  deriving Repr, DecidableEq

/-- `handleFullCompetitionData(params)`.  The returned list holds the emitted
lifecycle events (`database:ready`, `hub:ready`). -/
def handleFullCompetitionData (st : HubState) (now : Nat) (input : DbInput) :
    HubState × HubResult × List String :=
  let st := { st with messagesReceived := st.messagesReceived + 1 }
  let incomingChecksum := input.checksum
  if incomingChecksum.isSome && st.lastDatabaseChecksum.isSome &&
     incomingChecksum = st.lastDatabaseChecksum then
    ({ st with databaseRequested := 0, lastDatabaseLoad := now },
     { accepted := true, reason := some "duplicate_checksum", cached := true }, [])
  else if st.isLoadingDatabase.isSome then
    (st, { accepted := false, reason := some "already_loading" }, [])
  else if incomingChecksum.isNone && st.lastDatabaseLoad > 0 &&
          now - st.lastDatabaseLoad < 2000 then
    (st, { accepted := true, reason := some "duplicate_skipped", cached := true }, [])
  else
    let st := { st with isLoadingDatabase := some now }
    let hasCompetitionInfo := input.hasCompetitionInfo
    let hasAthletes := !input.athletes.isEmpty
    if !hasCompetitionInfo && !hasAthletes then
      -- source returns here without releasing the loading latch
      (st, { accepted := false, reason := some "no_valid_data_parsed" }, [])
    else
      let st := { st with hasConfirmedFops := true }
      let db : DbState :=
        { athletes := input.athletes, databaseChecksum := incomingChecksum,
          initialized := true, lastUpdate := now }
      let st := { st with databaseState := some db, databaseTeamMap := input.teams }
      let knownFops := st.fopUpdates.map (fun p => p.1)
      let st :=
        if knownFops.isEmpty then incrementFopVersion st "A"
        else knownFops.foldl incrementFopVersion st
      let st :=
        { st with isLoadingDatabase := none, lastDatabaseLoad := now,
                  databaseRequested := 0, lastDatabaseChecksum := db.databaseChecksum }
      let events := ["database:ready"] ++ (if isReady st then ["hub:ready"] else [])
      (st, { accepted := true }, events)

/-- `markTranslationsComplete(localesCount)` (the count is only logged). -/
def markTranslationsComplete (st : HubState) : HubState × List String :=
  if st.translations.isEmpty then (st, [])
  else
    let st := { st with translationsReady := true }
    (st, if isReady st then ["hub:ready"] else [])

/-- `refresh()`: the disconnect-time full reset.  Note which fields it does
NOT touch: `fopVersions`, `fopSessionStatus`, `databaseRequested`,
`isLoadingDatabase`. -/
def refresh (st : HubState) : HubState × List String :=
  ({ st with
      databaseState := none
      fopUpdates := []
      databaseTeamMap := []
      lastDatabaseChecksum := none
      lastDatabaseLoad := 0
      translations := []
      translationsReady := false
      hasConfirmedFops := false },
   ["waiting"])

/-- `getTranslations` as a hub query. -/
def hubGetTranslations (st : HubState) (locale : String) : Tmap :=
  getTranslations st.translations locale

/-- The key chain `_resolveAthleteByKey` uses on a raw `sessionAthletes` entry:
`ath?.key ?? ath?.id ?? ath?.athlete?.key ?? ath?.athlete?.id ?? ath?.athleteKey`. -/
def entryRawKey : SessionEntry → Option JsLite
  | .flatE o =>
      (jgetNN o "key").orElse (fun _ => (jgetNN o "id").orElse (fun _ => jgetNN o "athleteKey"))
  | .wrapped a _ =>
      (jgetNN a "key").orElse (fun _ => jgetNN a "id")

/-- `_resolveAthleteByKey(update, key)`: primary lookup in the flattened map,
fallback linear search of the raw `sessionAthletes` array (which yields the raw,
unflattened entry). -/
def resolveAthleteByKey (update : FopSnapshot) (key : Option JsLite) :
    Option SessionEntry :=
  match normalizeAthleteKey key with
  | none => none
  | some nk =>
      match alGet update.sessionAthletesByKey nk with
      | some a => some (.flatE a)
      | none =>
          match update.sessionAthletes with
          | none => none
          | some entries =>
              match entries.find?
                  (fun oe =>
                    match oe with
                    | none => false
                    | some e => normalizeAthleteKey (entryRawKey e) = some nk) with
              | some (some e) => some e
              | _ => none

/-- `_enrichAthleteData(athlete, update)` on a resolved entry: unwrap the V2
shape, merge `displayInfo`, and append the computed fields. -/
def enrichResolvedAthlete (athlete : SessionEntry) : EnrichedAthlete :=
  let unwrapped : JsObj × Option JsObj :=
    match athlete with
    | .wrapped a di => (a, di)
    | .flatE o => (o, none)
  let baseAthlete := unwrapped.1
  let enriched :=
    match unwrapped.2 with
    | some di => jsMergeObj baseAthlete di
    | none => baseAthlete
  let core := enrichAthleteData baseAthlete
  { core with record := enriched }

/-- `getCurrentAthlete({fopName})`. -/
def getCurrentAthlete (st : HubState) (fopName : String) : Option EnrichedAthlete :=
  match alGet st.fopUpdates fopName with
  | none => none
  | some update =>
      if !otruthy update.currentAthleteKey then none
      else
        match resolveAthleteByKey update update.currentAthleteKey with
        | none => none
        | some athlete => some (enrichResolvedAthlete athlete)

/-! ## Hub operation traces -/

/-- One externally triggered hub operation. -/
inductive HubOp
  | message (now : Nat) (params : Payload) (messageType : String)
  | fullData (now : Nat) (input : DbInput)
  | setTr (locale : String) (map : Tmap)
  | markTrComplete
  | doRefresh
  deriving Repr

/-- One step of the hub, returning the emitted lifecycle events. -/
def stepHub (st : HubState) : HubOp → HubState × List String
  | .message now p mt => ((handleOwlcmsMessage st now p mt).1, [])
  | .fullData now i =>
      let r := handleFullCompetitionData st now i
      (r.1, r.2.2)
  | .setTr locale m => ({ st with translations := setTranslations st.translations locale m }, [])
  | .markTrComplete => markTranslationsComplete st
  | .doRefresh => refresh st

/-- Run a trace of operations, accumulating emitted events. -/
def runTrace (st : HubState) (ops : List HubOp) : HubState × List String :=
  ops.foldl (fun acc op =>
    let r := stepHub acc.1 op
    (r.1, acc.2 ++ r.2)) (st, [])

/-! ## Protocol version gate (`protocol/protocol-config.js`) -/

/-- `MINIMUM_PROTOCOL_VERSION`. -/
def MINIMUM_PROTOCOL_VERSION : String := "64.0.0"

/-- Longest digit prefix of a char list, with the remainder. -/
def takeDigits (cs : List Char) : Option (Nat × List Char) :=
  let ds := cs.takeWhile Char.isDigit
  if ds.isEmpty then none
  else some (digitsToNat ds, cs.drop ds.length)

/-- `parseVersion(version)`: the regex
`^(\d+)\.(\d+)\.(\d+)(?:[-+].*)?$` with the three `parseInt` captures. -/
def parseVersion (version : String) : Option (Nat × Nat × Nat) :=
  match takeDigits version.toList with
  | none => none
  | some (maj, rest1) =>
      match rest1 with
      | '.' :: rest2 =>
          match takeDigits rest2 with
          | none => none
          | some (minr, rest3) =>
              match rest3 with
              | '.' :: rest4 =>
                  match takeDigits rest4 with
                  | none => none
                  | some (pat, rest5) =>
                      match rest5 with
                      | [] => some (maj, minr, pat)
                      | c :: _ => if c = '-' || c = '+' then some (maj, minr, pat) else none
              | _ => none
      | _ => none

/-- `compareVersions(v1, v2)` on two successfully parsed versions. -/
def compareVersionsParsed (p1 p2 : Nat × Nat × Nat) : Int :=
  if p1.1 ≠ p2.1 then (p1.1 : Int) - p2.1
  else if p1.2.1 ≠ p2.2.1 then (p1.2.1 : Int) - p2.2.1
  else (p1.2.2 : Int) - p2.2.2

/-- `isVersionAcceptable(version)` result: validity plus the `reason` text. -/
structure VersionVerdict where
  valid : Bool
  reason : String
  deriving Repr, DecidableEq

/-- `isVersionAcceptable(version, MINIMUM_PROTOCOL_VERSION)`. -/
def isVersionAcceptable (version : String) : VersionVerdict :=
  match parseVersion version with
  | none =>
      { valid := false
        reason := "Invalid version format from OWLCMS: \"" ++ version ++
          "\" (expected \"MAJOR.MINOR.PATCH\")" }
  | some parsed =>
      match parseVersion MINIMUM_PROTOCOL_VERSION with
      | none =>
          { valid := false
            reason := "Invalid minimum version configured: \"" ++ MINIMUM_PROTOCOL_VERSION ++ "\"" }
      | some parsedMin =>
          if compareVersionsParsed parsed parsedMin < 0 then
            { valid := false
              reason := "OWLCMS protocol version " ++ version ++
                " is below required minimum " ++ MINIMUM_PROTOCOL_VERSION ++
                ". Please upgrade OWLCMS." }
          else
            { valid := true
              reason := "Protocol version " ++ version ++ " accepted (>= minimum " ++
                MINIMUM_PROTOCOL_VERSION ++ ")" }

/-- `extractAndValidateVersion(message)` result. -/
structure VersionCheck where
  valid : Bool
  version : Option String
  error : Option String
  deriving Repr, DecidableEq

/-- `extractAndValidateVersion(message)` on a parsed message object. -/
def extractAndValidateVersion (version : Option String) : VersionCheck :=
  -- `if (!version)`: absent or empty string
  if !jsStrTruthy version then
    { valid := false, version := none,
      error := some ("Message missing \"version\" field. Expected format: " ++
        "\x7b\"version\":\"2.0.0\",\"type\":\"...\",\"payload\":\x7b...\x7d\x7d") }
  else
    let v := version.getD ""
    let verdict := isVersionAcceptable v
    { valid := verdict.valid, version := some v,
      error := if verdict.valid then none else some verdict.reason }

/-! ## WebSocket responder (`websocket-server.js`, text frames) -/

/-- A response envelope written back on the socket, restricted to the fields
the claims inspect.  `status = none` models the status-less `{error: ...}`
envelopes. -/
structure WsResponse where
  status : Option Nat := none
  message : Option String := none
  reason : Option String := none
  error : Option String := none
  missing : List String := []
  detailsReceived : Option String := none
  detailsInfo : Option String := none
  retry : Bool := false
  pending : Bool := false
  closed : Bool := false
  deriving Repr, DecidableEq

/-- Per-connection handler state (`clientAuthenticated`,
`firstConnectionHandled`). -/
structure ConnState where
  clientAuthenticated : Bool
  firstConnectionHandled : Bool
  deriving Repr, DecidableEq

/-- Server configuration: `process.env.OWLCMS_UPDATEKEY`. -/
structure WsConfig where
  expectedKey : Option String := none
  deriving Repr, DecidableEq

/-- A parsed text frame `{version, type, payload}`.  The `payload` carries the
update-shaped fields; `dbPayload` is the same payload read as a database
snapshot, and `bundledDatabase` models a `payload.database` envelope. -/
structure TextMessage where
  version : Option String := none
  type : Option String := none
  payload : Option Payload := none
  dbPayload : DbInput := {}
  bundledDatabase : Option DbInput := none
  deriving Repr

/-- `capitalize(value)`. -/
def capitalize (s : String) : String :=
  match s.toList with
  | [] => s
  | c :: cs => String.mk (c.toUpper :: cs)

/-- `mapHubResultToResponse(result, messageType)` (reads
`getMissingPreconditions` from the hub for the 428 case). -/
def mapHubResultToResponse (st : HubState) (result : HubResult) (messageType : String) :
    WsResponse :=
  if result.accepted then
    { status := some 200, message := some (capitalize messageType ++ " processed") }
  else if result.retry then
    { status := some 202, message := some "Database load in progress, please retry" }
  else if result.needsData then
    { status := some 428, message := some "Precondition Required: Missing required data",
      missing := getMissingPreconditions st }
  else
    { status := some 500,
      message := some (jsStrOr result.reason ("Unable to process " ++ messageType)) }

/-- `handleUpdateMessage(payload)` — the precondition check dominates the
hub result. -/
def handleUpdateMessage (st : HubState) (now : Nat) (payload : Payload) :
    HubState × WsResponse :=
  let r := handleOwlcmsMessage st now payload "update"
  let missing := getMissingPreconditions r.1
  if !missing.isEmpty then
    (r.1, { status := some 428,
            message := some "Precondition Required: Missing required data",
            reason := some "missing_preconditions", missing := missing })
  else
    (r.1, mapHubResultToResponse r.1 r.2 "update")

/-- `handleTimerMessage(payload)`. -/
def handleTimerMessage (st : HubState) (now : Nat) (payload : Payload) :
    HubState × WsResponse :=
  let r := handleOwlcmsMessage st now payload "timer"
  let missing := getMissingPreconditions r.1
  if !missing.isEmpty then
    (r.1, { status := some 428,
            message := some "Precondition Required: Missing required data",
            reason := some "missing_preconditions", missing := missing })
  else
    (r.1, mapHubResultToResponse r.1 r.2 "timer")

/-- `handleDecisionMessage(payload)`. -/
def handleDecisionMessage (st : HubState) (now : Nat) (payload : Payload) :
    HubState × WsResponse :=
  let r := handleOwlcmsMessage st now payload "decision"
  let missing := getMissingPreconditions r.1
  if !missing.isEmpty then
    (r.1, { status := some 428,
            message := some "Precondition Required: Missing required data",
            reason := some "missing_preconditions", missing := missing })
  else
    (r.1, mapHubResultToResponse r.1 r.2 "decision")

/-- `handleDatabaseMessage(payload)`. -/
def handleDatabaseMessage (st : HubState) (now : Nat) (input : DbInput) :
    HubState × WsResponse × List String :=
  let hasAthletes := !input.athletes.isEmpty
  if !hasAthletes then
    let r := handleFullCompetitionData st now input
    (r.1, { status := some 202,
            message := some "Empty database stored - expecting database_zip binary message",
            pending := true, reason := some "awaiting_binary_database" }, r.2.2)
  else
    let r := handleFullCompetitionData st now input
    if r.2.1.accepted then
      (r.1, { status := some 200,
              message := some "Full competition data loaded successfully" }, r.2.2)
    else
      (r.1, { status := some 500,
              message := some (jsStrOr r.2.1.reason "Unable to process full competition data") },
       r.2.2)

/-- `handleGenericMessage(payload, hasBundledDatabase, type)`. -/
def handleGenericMessage (st : HubState) (now : Nat) (payload : Payload)
    (hasBundledDatabase : Bool) (type : String) : HubState × WsResponse :=
  if st.databaseState.isNone && !hasBundledDatabase then
    let r := handleOwlcmsMessage st now payload (if type = "" then "generic" else type)
    (r.1, { status := some 428,
            message := some "Precondition Required: Missing required data",
            reason := some (jsStrOr r.2.reason "no_database_state"),
            missing := getMissingPreconditions r.1 })
  else
    let r := handleOwlcmsMessage st now payload (if type = "" then "generic" else type)
    (r.1, mapHubResultToResponse r.1 r.2 (if type = "" then "message" else type))

/-- `flushAndResetOnce()` of the connection handler: on the first connection's
first database frame, null out database and translations (but, notably, not
`translationsReady`). -/
def flushAndResetOnce (st : HubState) (conn : ConnState) : HubState × ConnState :=
  if conn.firstConnectionHandled then (st, conn)
  else
    ({ st with databaseState := none, lastDatabaseChecksum := none, translations := [] },
     { conn with firstConnectionHandled := true })

/-- The `'message'` listener of `initWebSocketServer` for a text frame that
parsed as JSON, from the protocol-version gate to the routed response
(`ws.send(JSON.stringify(result))`).  Returns the new hub state, connection
state, response envelope and emitted hub events. -/
def handleTextFrame (st : HubState) (conn : ConnState) (cfg : WsConfig) (now : Nat)
    (msg : TextMessage) : HubState × ConnState × WsResponse × List String :=
  let versionCheck := extractAndValidateVersion msg.version
  if !versionCheck.valid then
    (st, conn,
     { status := some 400, error := some "Protocol version check failed",
       reason := versionCheck.error,
       detailsReceived := versionCheck.version,
       detailsInfo := some ("Please ensure OWLCMS is configured with the correct tracker " ++
         "WebSocket URL and is up to date") }, [])
  else
    if !jsStrTruthy msg.type || msg.payload.isNone then
      (st, conn,
       { error := some "Invalid message format. Expected \x7bversion, type, payload\x7d" }, [])
    else
      let payload := msg.payload.getD {}
      match cfg.expectedKey with
      | some expected =>
          if payload.updateKey ≠ some expected then
            (st, conn, { status := some 401, message := some "Access not authorized",
                         closed := true }, [])
          else
            handleTextFrameAuthed st { conn with clientAuthenticated := true } now msg payload
      | none => handleTextFrameAuthed st conn now msg payload
where
  /-- The part of the listener after the auth gate: bundled database, then the
  type-based routing. -/
  handleTextFrameAuthed (st : HubState) (conn : ConnState) (now : Nat)
      (msg : TextMessage) (payload : Payload) :
      HubState × ConnState × WsResponse × List String :=
    let hasBundledDatabase := msg.bundledDatabase.isSome
    let bundled :=
      match msg.bundledDatabase with
      | some dbi =>
          let r := handleFullCompetitionData st now dbi
          if r.2.1.accepted then (r.1, r.2.2, true)
          else (r.1, r.2.2, false)
      | none => (st, [], true)
    let st := bundled.1
    if !bundled.2.2 then
      -- `handleDatabaseEnvelope` threw; the catch block answers with an error envelope
      (st, conn, { error := some "Unable to parse JSON: bundled database" }, bundled.2.1)
    else
      match msg.type with
      | some "database" =>
          let fr := flushAndResetOnce st conn
          let r := handleDatabaseMessage fr.1 now msg.dbPayload
          (r.1, fr.2, r.2.1, bundled.2.1 ++ r.2.2)
      | some "update" =>
          let r := handleUpdateMessage st now payload
          (r.1, conn, r.2, bundled.2.1)
      | some "timer" =>
          let r := handleTimerMessage st now payload
          (r.1, conn, r.2, bundled.2.1)
      | some "decision" =>
          let r := handleDecisionMessage st now payload
          (r.1, conn, r.2, bundled.2.1)
      | t =>
          let r := handleGenericMessage st now payload hasBundledDatabase (jsStrOr t "")
          (r.1, conn, r.2, bundled.2.1)

/-! ## Closed set of lift statuses and claim input shapes -/

/-- The closed set of `liftStatus` values named by the specification. -/
def validLiftStatuses : List String :=
  ["good", "bad", "current", "next", "request", "empty"]

/-- The `status` strings the producer sends in `{value, status}` objects. -/
def producerStatuses : List String :=
  ["good", "bad", "request", "current", "next"]

/-- The input shapes quantified over by the attempt-normalization claim:
`null`/missing, `{value, status}` with a possibly-null producer status, legacy
signed numbers, or strings (including the parenthesized form). -/
def ClaimAttemptShape : AttemptVal → Prop
  | .jnull => True
  | .v2 _ status => status = none ∨ ∃ s, status = some s ∧ s ∈ producerStatuses
  | .norm _ _ => False
  | .num _ => True
  | .str _ => True

/-- `liftStatus` of a normalized attempt object. -/
def AttemptVal.liftStatusOf : AttemptVal → Option String
  | .norm _ ls => some ls
  | _ => none

/-- Length of an attempts array stored in a record field. -/
def attArrLen : Option JsLite → Option Nat
  | some (.attArr xs) => some xs.length
  | _ => none

/-! ## Concrete scenario inputs used by counterexamples and witnesses -/

/-- The S3 session athlete of the specification:
`{key:"1", snatch1Declaration:100, snatch1ActualLift:-100, snatch2Declaration:100}`. -/
def s3Athlete : JsObj :=
  [("key", .str "1"), ("snatch1Declaration", .num 100),
   ("snatch1ActualLift", .num (-100)), ("snatch2Declaration", .num 100)]

/-- The S3 update payload (the `liftingOrderKeys` are irrelevant to the claims
and omitted from the modelled fields). -/
def s3Payload : Payload :=
  { fop := some "A", uiEvent := some "LiftingOrderUpdated",
    currentAthleteKey := some (.str "1"),
    sessionAthletes := some [some (.flatE s3Athlete)] }

/-- Hub state after ingesting the S3 update frame. -/
def s3State : HubState := (handleOwlcmsMessage initialHub 1000 s3Payload "update").1

/-- A bare timer payload on FOP `A`. -/
def timerPayload : Payload :=
  { fop := some "A", athleteTimerEventType := some "StartTime" }

/-- State with one prior update folded on FOP `A` (so the snapshot exists). -/
def c1BaseState : HubState :=
  (handleOwlcmsMessage initialHub 1000 { fop := some "A", uiEvent := some "LiftingOrderUpdated" }
    "update").1

/-- A session athlete whose `sattempts` array has only one element. -/
def shortAttemptsEntry : SessionEntry :=
  .flatE [("key", .str "1"), ("sattempts", .attArr [.num 100])]

/-- A session athlete with all six attempts `null`. -/
def allNullAttemptsEntry : SessionEntry :=
  .flatE [("key", .str "1"),
          ("sattempts", .attArr [.jnull, .jnull, .jnull]),
          ("cattempts", .attArr [.jnull, .jnull, .jnull])]

/-- A session status marked done. -/
def doneStatus : SessionStatus :=
  { isDone := true, sessionName := "M1", lastActivity := 10 }

/-- C5 trace: only a French locale is stored, translations are marked complete,
then two full database loads with distinct checksums arrive. -/
def c5ops : List HubOp :=
  [.setTr "fr" [("k", "v")], .markTrComplete,
   .fullData 1000 { athletes := [[("key", .str "1")]], hasCompetitionInfo := true,
                    checksum := some "c1" },
   .fullData 5000 { athletes := [[("key", .str "1")]], hasCompetitionInfo := true,
                    checksum := some "c2" }]

/-- The state and emitted events after the C5 trace. -/
def c5Result : HubState × List String := runTrace initialHub c5ops

/-- C6 trace: base `fr` with `k=v1`, then an empty regional `fr-CA`, then the
base re-sent with `k=v2`. -/
def c6store : TrStore :=
  setTranslations (setTranslations (setTranslations [] "fr" [("k", "v1")]) "fr-CA" []) "fr"
    [("k", "v2")]

/-- Apply a sequence of `setTranslations` calls to the empty store. -/
def applySets (sets : List (String × Tmap)) : TrStore :=
  sets.foldl (fun acc p => setTranslations acc p.1 p.2) []

/-- C6 witness trace: base `fr`, then regional `fr-CA`, then the base re-sent
with a changed and an added key. -/
def c6WitnessSets : List (String × Tmap) :=
  [("fr", [("k", "v1")]), ("fr-CA", [("k2", "u")]), ("fr", [("k", "v2"), ("k3", "w")])]

/-- State in which a database was requested via 428 at time 500 (the window
for a frame arriving at time 900 is open). -/
def c7state : HubState := { initialHub with databaseRequested := 500 }

/-- A minimal data frame payload on FOP `A`. -/
def c7Payload : Payload := { fop := some "A" }

/-- A text frame carrying a protocol version below the minimum. -/
def oldVersionMsg : TextMessage :=
  { version := some "2.2.0", type := some "update", payload := some c7Payload }

/-- A text frame with a valid version but a wrong `updateKey`. -/
def badKeyMsg : TextMessage :=
  { version := some "64.0.0", type := some "update",
    payload := some { fop := some "A", updateKey := some "wrong" } }

/-- Server configured with an `OWLCMS_UPDATEKEY`. -/
def keyedConfig : WsConfig := { expectedKey := some "secret" }

/-- A fresh connection handler state. -/
def freshConn : ConnState := { clientAuthenticated := false, firstConnectionHandled := false }

/-- Specification-side list of the numeric values of good lifts in a
normalized attempts array (entries with `liftStatus == 'good'` and a truthy
`stringValue`, as parsed by `parseFloat`). -/
def goodLiftValues (attempts : List AttemptVal) : List Int :=
  attempts.filterMap (fun a =>
    match a with
    | .norm sv ls => if ls = "good" && sv != "" then jsParseFloat sv else none
    | _ => none)

/-- The three-element `sattempts` input of the C2 witness athlete. -/
def c2WitnessAtts : List AttemptVal :=
  [.jnull, .num 100, .v2 (some (.num 95)) (some "good")]

/-- The three-element `cattempts` input of the C2 witness athlete. -/
def c2WitnessCatts : List AttemptVal :=
  [.str "(90)", .v2 (some (.str "x")) none, .v2 none none]

/-- A session athlete with three-element `sattempts`/`cattempts` covering the
claim's input shapes. -/
def c2WitnessEntry : SessionEntry :=
  .flatE [("key", .str "1"),
          ("sattempts", .attArr c2WitnessAtts),
          ("cattempts", .attArr c2WitnessCatts)]

/-- The flattened record of `shortAttemptsEntry`. -/
def c2CounterFlat : JsObj :=
  ((flattenEntry [] none shortAttemptsEntry).getD ("", [])).2

/-- The flattened record of `allNullAttemptsEntry`. -/
def c9CounterFlat : JsObj :=
  ((flattenEntry [] none allNullAttemptsEntry).getD ("", [])).2

/-- The `sattempts` input of the C9 witness athlete. -/
def c9WitnessAtts : List AttemptVal := [.num 100, .num (-110), .num 105]

/-- The `cattempts` input of the C9 witness athlete. -/
def c9WitnessCatts : List AttemptVal := [.jnull, .jnull, .jnull]

/-- The flattened record of `c2WitnessEntry`. -/
def c2WitnessFlat : JsObj :=
  ((flattenEntry [] none c2WitnessEntry).getD ("", [])).2

/-- A session athlete with mixed good/failed snatch attempts and all
clean-and-jerk attempts null. -/
def c9WitnessEntry : SessionEntry :=
  .flatE [("key", .str "1"),
          ("sattempts", .attArr c9WitnessAtts),
          ("cattempts", .attArr c9WitnessCatts)]

/-- The flattened record of `c9WitnessEntry`. -/
def c9WitnessFlat : JsObj :=
  ((flattenEntry [] none c9WitnessEntry).getD ("", [])).2

/-- Specification-side predicate: the frame carries the group-done sentinel
(`uiEvent == 'GroupDone'` or `breakType == 'GROUP_DONE'`). -/
def sessionGroupDoneCond (p : Payload) : Prop :=
  p.uiEvent = some "GroupDone" ∨ jsStrOr p.breakType "" = "GROUP_DONE"

/-- Specification-side predicate: the frame counts as activity for the reopen
transition (a truthy `uiEvent`, `athleteTimerEventType` or
`decisionEventType`). -/
def sessionActivityCond (p : Payload) : Prop :=
  jsStrTruthy p.uiEvent = true ∨ jsStrTruthy p.athleteTimerEventType = true ∨
    jsStrTruthy p.decisionEventType = true

/-- Snapshot of FOP `A` in `c1BaseState`, used as the concrete prior snapshot. -/
def c1PrevSnap : FopSnapshot :=
  (alGet c1BaseState.fopUpdates "A").getD
    { lastUpdate := 0, lastDataUpdate := 0, currentAthleteKey := none,
      sessionAthletes := none, sessionAthletesByKey := [] }

/-! ## Association-list lemmas -/

theorem alGet_cons {α : Type} (p : String × α) (l : List (String × α)) (g : String) :
    alGet (p :: l) g = if p.1 = g then some p.2 else alGet l g := by
  by_cases h : p.1 = g
  · simp [alGet, List.find?_cons_of_pos, h]
  · simp [alGet, List.find?_cons_of_neg, h]

theorem alGet_append {α : Type} (l1 l2 : List (String × α)) (g : String) :
    alGet (l1 ++ l2) g =
      match alGet l1 g with
      | some v => some v
      | none => alGet l2 g := by
  induction l1 with
  | nil => simp [alGet]
  | cons p rest ih =>
      rw [List.cons_append, alGet_cons, alGet_cons]
      by_cases hp : p.1 = g
      · simp [hp]
      · simp [hp, ih]

theorem alGet_of_any_eq_false {α : Type} (l : List (String × α)) (k : String)
    (h : l.any (fun p => p.1 = k) = false) : alGet l k = none := by
  induction l with
  | nil => rfl
  | cons p rest ih =>
      simp only [List.any_cons, Bool.or_eq_false_iff] at h
      rw [alGet_cons, if_neg (by simpa using h.1)]
      exact ih h.2

theorem alGet_map_replace {α : Type} (l : List (String × α)) (k g : String) (v : α) :
    alGet (l.map (fun p => if p.1 = k then (k, v) else p)) g =
      if g = k then (if l.any (fun p => p.1 = k) then some v else none)
      else alGet l g := by
  induction l with
  | nil => by_cases hg : g = k <;> simp [alGet, hg]
  | cons p rest ih =>
      simp only [List.map_cons, List.any_cons]
      by_cases hp : p.1 = k
      · rw [if_pos hp, alGet_cons]
        by_cases hg : g = k
        · subst hg
          simp only [ih, hp]
          simp
        · have hkg : ¬ ((k, v).1 = g) := fun h => hg h.symm
          have hpg : ¬ (p.1 = g) := by rw [hp]; exact fun h => hg h.symm
          rw [if_neg hkg, ih, if_neg hg, alGet_cons, if_neg hpg, if_neg hg]
      · rw [if_neg hp, alGet_cons]
        by_cases hpg : p.1 = g
        · have hg : ¬ (g = k) := fun h => hp (by rw [hpg, h])
          rw [if_pos hpg, if_neg hg, alGet_cons, if_pos hpg]
        · rw [if_neg hpg, ih]
          by_cases hg : g = k
          · rw [if_pos hg, if_pos hg]
            simp only [decide_eq_false hp, Bool.false_or]
          · simp [hg, alGet_cons, hpg]

theorem alGet_alSet {α : Type} (l : List (String × α)) (k g : String) (v : α) :
    alGet (alSet l k v) g = if g = k then some v else alGet l g := by
  unfold alSet
  split
  case isTrue hany =>
    rw [alGet_map_replace, hany]
    by_cases hg : g = k <;> simp [hg]
  case isFalse hany =>
    rw [alGet_append]
    by_cases hg : g = k
    · subst hg
      rw [alGet_of_any_eq_false l g (Bool.eq_false_iff.mpr hany)]
      simp [alGet_cons, alGet]
    · have hkg : ¬ (k = g) := fun h => hg h.symm
      rw [if_neg hg]
      cases halg : alGet l g with
      | some v' => rfl
      | none => simp [alGet_cons, alGet, hkg]

theorem alGet_alSet_self {α : Type} (l : List (String × α)) (k : String) (v : α) :
    alGet (alSet l k v) k = some v := by
  simp [alGet_alSet]

theorem alGet_alSet_ne {α : Type} (l : List (String × α)) (k g : String) (v : α)
    (h : g ≠ k) : alGet (alSet l k v) g = alGet l g := by
  simp [alGet_alSet, h]

theorem alGet_alSet_isSome {α : Type} (l : List (String × α)) (k g : String) (v : α)
    (h : (alGet l g).isSome) : (alGet (alSet l k v) g).isSome := by
  rw [alGet_alSet]
  by_cases hg : g = k <;> simp [hg, h]

theorem alSet_ne_nil {α : Type} (l : List (String × α)) (k : String) (v : α) :
    alSet l k v ≠ [] := by
  unfold alSet
  split
  case isTrue hany =>
    cases l with
    | nil => simp at hany
    | cons p rest => simp
  case isFalse hany => simp

/-! ## `tmerge` lemmas -/

theorem alGet_tmerge_of_none (a b : Tmap) (k : String) (hb : alGet b k = none) :
    alGet (tmerge a b) k = alGet a k := by
  induction b generalizing a with
  | nil => rfl
  | cons p rest ih =>
      rw [alGet_cons] at hb
      by_cases hp : p.1 = k
      · simp [hp] at hb
      · show alGet (tmerge (alSet a p.1 p.2) rest) k = alGet a k
        rw [ih _ (by simpa [hp] using hb), alGet_alSet_ne _ _ _ _ (fun h => hp h.symm)]

theorem alGet_tmerge_of_some (a b : Tmap) (k : String) (v : String)
    (hnodup : (b.map Prod.fst).Nodup) (hb : alGet b k = some v) :
    alGet (tmerge a b) k = some v := by
  induction b generalizing a with
  | nil => simp [alGet] at hb
  | cons p rest ih =>
      simp only [List.map_cons, List.nodup_cons] at hnodup
      rw [alGet_cons] at hb
      by_cases hp : p.1 = k
      · have hv : p.2 = v := by simpa [hp] using hb
        have hrest : alGet rest k = none := by
          apply alGet_of_any_eq_false
          cases hany : rest.any (fun q => q.1 = k) with
          | false => rfl
          | true =>
              exfalso
              have hex : ∃ q ∈ rest, q.1 = k := by simpa using hany
              obtain ⟨q, hq, hqk⟩ := hex
              have hmem : p.1 ∈ List.map Prod.fst rest := by
                rw [hp, ← hqk]
                exact List.mem_map_of_mem Prod.fst hq
              exact hnodup.1 hmem
        show alGet (tmerge (alSet a p.1 p.2) rest) k = some v
        rw [alGet_tmerge_of_none _ _ _ hrest, hp, hv, alGet_alSet_self]
      · show alGet (tmerge (alSet a p.1 p.2) rest) k = some v
        exact ih _ hnodup.2 (by simpa [hp] using hb)

theorem alGet_tmerge_isSome_left (a b : Tmap) (k : String)
    (h : (alGet a k).isSome) : (alGet (tmerge a b) k).isSome := by
  induction b generalizing a with
  | nil => exact h
  | cons p rest ih =>
      exact ih (alSet a p.1 p.2) (alGet_alSet_isSome _ _ _ _ h)

/-! ## Flatten-step lemmas -/

theorem jget_jset {o : JsObj} (k g : String) (v : JsLite) :
    jget (jset o k v) g = if g = k then some v else jget o g :=
  alGet_alSet o k g v

theorem jget_jset_self {o : JsObj} (k : String) (v : JsLite) :
    jget (jset o k v) k = some v := by
  rw [jget_jset, if_pos rfl]

theorem jget_jset_ne {o : JsObj} (k g : String) (v : JsLite) (h : g ≠ k) :
    jget (jset o k v) g = jget o g := by
  rw [jget_jset, if_neg h]

theorem fullNameStep_jget (o : JsObj) (g : String) (h : g ≠ "fullName") :
    jget (fullNameStep o) g = jget o g := by
  unfold fullNameStep
  split
  · rw [jget_jset_ne _ _ _ h]
  · rfl

theorem teamNameStep_jget (tm : List (String × String)) (o : JsObj) (g : String)
    (h : g ≠ "teamName") :
    jget (teamNameStep tm o) g = jget o g := by
  unfold teamNameStep
  split
  · rw [jget_jset_ne _ _ _ h]
  · rfl

theorem categoryStep_jget (o : JsObj) (g : String) (h : g ≠ "category") :
    jget (categoryStep o) g = jget o g := by
  unfold categoryStep
  split
  · split
    · rw [jget_jset_ne _ _ _ h]
    · rfl
  · rfl

theorem yearOfBirthStep_jget (o : JsObj) (g : String) (h : g ≠ "yearOfBirth") :
    jget (yearOfBirthStep o) g = jget o g := by
  unfold yearOfBirthStep
  split
  · dsimp only
    split
    · rw [jget_jset_ne _ _ _ h]
    · rfl
  · rfl

theorem sattemptsStep_jget (o : JsObj) (g : String) (h : g ≠ "sattempts") :
    jget (sattemptsStep o) g = jget o g := by
  unfold sattemptsStep
  split
  · rw [jget_jset_ne _ _ _ h]
  · rfl

theorem cattemptsStep_jget (o : JsObj) (g : String) (h : g ≠ "cattempts") :
    jget (cattemptsStep o) g = jget o g := by
  unfold cattemptsStep
  split
  · rw [jget_jset_ne _ _ _ h]
  · rfl

theorem sattemptsStep_sattempts (o : JsObj) :
    jget (sattemptsStep o) "sattempts" =
      match jget o "sattempts" with
      | some (.attArr xs) => some (.attArr (xs.map normalizeAttemptValue))
      | v => v := by
  unfold sattemptsStep
  cases hx : jget o "sattempts" with
  | none => exact hx
  | some v =>
      cases v with
      | attArr xs => exact jget_jset_self _ _
      | null => exact hx
      | num n => exact hx
      | str s => exact hx

theorem cattemptsStep_cattempts (o : JsObj) :
    jget (cattemptsStep o) "cattempts" =
      match jget o "cattempts" with
      | some (.attArr xs) => some (.attArr (xs.map normalizeAttemptValue))
      | v => v := by
  unfold cattemptsStep
  cases hx : jget o "cattempts" with
  | none => exact hx
  | some v =>
      cases v with
      | attArr xs => exact jget_jset_self _ _
      | null => exact hx
      | num n => exact hx
      | str s => exact hx

theorem attemptsStep_sattempts (o : JsObj) :
    jget (attemptsStep o) "sattempts" =
      match jget o "sattempts" with
      | some (.attArr xs) => some (.attArr (xs.map normalizeAttemptValue))
      | v => v := by
  unfold attemptsStep
  rw [cattemptsStep_jget _ _ (by decide), sattemptsStep_sattempts]

theorem attemptsStep_cattempts (o : JsObj) :
    jget (attemptsStep o) "cattempts" =
      match jget o "cattempts" with
      | some (.attArr xs) => some (.attArr (xs.map normalizeAttemptValue))
      | v => v := by
  unfold attemptsStep
  rw [cattemptsStep_cattempts, sattemptsStep_jget _ _ (by decide)]

theorem attemptsStep_jget (o : JsObj) (g : String) (h1 : g ≠ "sattempts")
    (h2 : g ≠ "cattempts") :
    jget (attemptsStep o) g = jget o g := by
  unfold attemptsStep
  rw [cattemptsStep_jget _ _ h2, sattemptsStep_jget _ _ h1]

theorem bestSnatchStep_jget (o : JsObj) (g : String) (h : g ≠ "bestSnatch") :
    jget (bestSnatchStep o) g = jget o g := by
  unfold bestSnatchStep
  split
  · split
    · rw [jget_jset_ne _ _ _ h]
    · rfl
  · rfl

theorem bestCleanJerkStep_jget (o : JsObj) (g : String) (h : g ≠ "bestCleanJerk") :
    jget (bestCleanJerkStep o) g = jget o g := by
  unfold bestCleanJerkStep
  split
  · split
    · rw [jget_jset_ne _ _ _ h]
    · rfl
  · rfl

theorem bestLiftsStep_jget (o : JsObj) (g : String) (h1 : g ≠ "bestSnatch")
    (h2 : g ≠ "bestCleanJerk") :
    jget (bestLiftsStep o) g = jget o g := by
  unfold bestLiftsStep
  rw [bestCleanJerkStep_jget _ _ h2, bestSnatchStep_jget _ _ h1]

theorem bestSnatchStep_bestSnatch (o : JsObj) (xs : List AttemptVal)
    (hb : jget o "bestSnatch" = none ∨ jget o "bestSnatch" = some (.str "-"))
    (hs : jget o "sattempts" = some (.attArr xs)) :
    jget (bestSnatchStep o) "bestSnatch" =
      some (match computeBestLift xs with
            | some b => JsLite.num b
            | none => JsLite.null) := by
  unfold bestSnatchStep
  have hcond : (jget o "bestSnatch" = none || jget o "bestSnatch" = some (.str "-")) = true := by
    rcases hb with h | h <;> simp [h]
  rw [if_pos hcond, hs]
  exact jget_jset_self _ _

theorem bestCleanJerkStep_bestCleanJerk (o : JsObj) (xs : List AttemptVal)
    (hb : jget o "bestCleanJerk" = none ∨ jget o "bestCleanJerk" = some (.str "-"))
    (hc : jget o "cattempts" = some (.attArr xs)) :
    jget (bestCleanJerkStep o) "bestCleanJerk" =
      some (match computeBestLift xs with
            | some b => JsLite.num b
            | none => JsLite.null) := by
  unfold bestCleanJerkStep
  have hcond : (jget o "bestCleanJerk" = none ||
      jget o "bestCleanJerk" = some (.str "-")) = true := by
    rcases hb with h | h <;> simp [h]
  rw [if_pos hcond, hc]
  exact jget_jset_self _ _

theorem bestLiftsStep_bestSnatch (o : JsObj) (xs : List AttemptVal)
    (hb : jget o "bestSnatch" = none ∨ jget o "bestSnatch" = some (.str "-"))
    (hs : jget o "sattempts" = some (.attArr xs)) :
    jget (bestLiftsStep o) "bestSnatch" =
      some (match computeBestLift xs with
            | some b => JsLite.num b
            | none => JsLite.null) := by
  unfold bestLiftsStep
  rw [bestCleanJerkStep_jget _ _ (by decide)]
  exact bestSnatchStep_bestSnatch o xs hb hs

theorem bestLiftsStep_bestCleanJerk (o : JsObj) (xs : List AttemptVal)
    (hb : jget o "bestCleanJerk" = none ∨ jget o "bestCleanJerk" = some (.str "-"))
    (hc : jget o "cattempts" = some (.attArr xs)) :
    jget (bestLiftsStep o) "bestCleanJerk" =
      some (match computeBestLift xs with
            | some b => JsLite.num b
            | none => JsLite.null) := by
  unfold bestLiftsStep
  apply bestCleanJerkStep_bestCleanJerk
  · rw [bestSnatchStep_jget _ _ (by decide)]; exact hb
  · rw [bestSnatchStep_jget _ _ (by decide)]; exact hc

theorem classnameStep_jget (ck : Option String) (key : String) (o : JsObj) (g : String)
    (h : g ≠ "classname") :
    jget (classnameStep ck key o) g = jget o g := by
  unfold classnameStep
  split
  · rw [jget_jset_ne _ _ _ h]
  · rfl

theorem finishEntry_jget (ck : Option String) (key : String) (o : JsObj) (g : String)
    (h1 : g ≠ "classname") (h2 : g ≠ "athleteKey") :
    jget (finishEntry ck key o) g = jget o g := by
  unfold finishEntry
  rw [jget_jset_ne _ _ _ h2, classnameStep_jget _ _ _ _ h1]

theorem flattenFields_sattempts (tm : List (String × String)) (o : JsObj) :
    jget (flattenFields tm o) "sattempts" =
      match jget o "sattempts" with
      | some (.attArr xs) => some (.attArr (xs.map normalizeAttemptValue))
      | v => v := by
  unfold flattenFields
  rw [bestLiftsStep_jget _ _ (by decide) (by decide), attemptsStep_sattempts,
      yearOfBirthStep_jget _ _ (by decide), categoryStep_jget _ _ (by decide),
      teamNameStep_jget _ _ _ (by decide), fullNameStep_jget _ _ (by decide)]

theorem flattenFields_cattempts (tm : List (String × String)) (o : JsObj) :
    jget (flattenFields tm o) "cattempts" =
      match jget o "cattempts" with
      | some (.attArr xs) => some (.attArr (xs.map normalizeAttemptValue))
      | v => v := by
  unfold flattenFields
  rw [bestLiftsStep_jget _ _ (by decide) (by decide), attemptsStep_cattempts,
      yearOfBirthStep_jget _ _ (by decide), categoryStep_jget _ _ (by decide),
      teamNameStep_jget _ _ _ (by decide), fullNameStep_jget _ _ (by decide)]

theorem flattenEntry_inv (tm : List (String × String)) (ck : Option String)
    (e : SessionEntry) (k : String) (fo : JsObj)
    (h : flattenEntry tm ck e = some (k, fo)) :
    fo = finishEntry ck k (flattenFields tm (unwrapSessionEntry e)) := by
  have h2 : (match normalizeAthleteKey
      ((jgetNN (flattenFields tm (unwrapSessionEntry e)) "key").orElse
        (fun _ => (jgetNN (flattenFields tm (unwrapSessionEntry e)) "id").orElse
        (fun _ => jgetNN (flattenFields tm (unwrapSessionEntry e)) "athleteKey"))) with
     | none => (none : Option (String × JsObj))
     | some key => some (key, finishEntry ck key (flattenFields tm (unwrapSessionEntry e)))) =
      some (k, fo) := h
  cases hk : normalizeAthleteKey
      ((jgetNN (flattenFields tm (unwrapSessionEntry e)) "key").orElse
        (fun _ => (jgetNN (flattenFields tm (unwrapSessionEntry e)) "id").orElse
        (fun _ => jgetNN (flattenFields tm (unwrapSessionEntry e)) "athleteKey"))) with
  | none =>
      rw [hk] at h2
      exact absurd h2 (by simp)
  | some key =>
      rw [hk] at h2
      injection h2 with h'
      rw [Prod.mk.injEq] at h'
      rw [← h'.1]
      exact h'.2.symm

theorem normalizeAttemptValue_closed (a : AttemptVal) (h : ClaimAttemptShape a) :
    ∃ ls, (normalizeAttemptValue a).liftStatusOf = some ls ∧ ls ∈ validLiftStatuses := by
  cases a with
  | jnull => exact ⟨"empty", rfl, by decide⟩
  | norm sv ls => exact absurd h (by simp [ClaimAttemptShape])
  | v2 v os =>
      cases v with
      | none =>
          cases os with
          | none => exact ⟨"empty", rfl, by decide⟩
          | some s => exact ⟨"empty", rfl, by decide⟩
      | some p =>
          cases os with
          | none => exact ⟨"request", rfl, by decide⟩
          | some s =>
              have hor : (some s : Option String) = none ∨
                  ∃ s2, (some s : Option String) = some s2 ∧ s2 ∈ producerStatuses := h
              rcases hor with h' | ⟨s2, hs2, hmem⟩
              · exact absurd h' (by simp)
              · injection hs2 with hs2
                subst hs2
                fin_cases hmem <;> exact ⟨_, rfl, by decide⟩
  | num n =>
      simp only [normalizeAttemptValue]
      repeat (first | exact ⟨_, rfl, by decide⟩ | split | dsimp only)
  | str s =>
      simp only [normalizeAttemptValue]
      repeat (first | exact ⟨_, rfl, by decide⟩ | split | dsimp only)

theorem computeBestLift_go (l : List AttemptVal) (b : Int) :
    l.foldl bestLiftFold (some b) = some ((goodLiftValues l).foldl max b) := by
  induction l generalizing b with
  | nil => rfl
  | cons a l ih =>
      rw [List.foldl_cons]
      cases a with
      | jnull => exact ih b
      | v2 v os => exact ih b
      | num n => exact ih b
      | str s => exact ih b
      | norm sv ls =>
          by_cases hls : ls = "good"
          · by_cases hsv : sv = ""
            · have h1 : bestLiftFold (some b) (.norm sv ls) = some b := by
                simp [bestLiftFold, hls, hsv]
              have h2 : goodLiftValues (.norm sv ls :: l) = goodLiftValues l := by
                simp [goodLiftValues, List.filterMap_cons, hls, hsv]
              rw [h1, h2]
              exact ih b
            · cases hp : jsParseFloat sv with
              | none =>
                  have h1 : bestLiftFold (some b) (.norm sv ls) = some b := by
                    simp [bestLiftFold, hls, hsv, hp]
                  have h2 : goodLiftValues (.norm sv ls :: l) = goodLiftValues l := by
                    simp [goodLiftValues, List.filterMap_cons, hls, hsv, hp]
                  rw [h1, h2]
                  exact ih b
              | some v =>
                  have hmax : (if v > b then some v else some b) = some (max b v) := by
                    rcases le_or_lt v b with hvb | hvb
                    · rw [if_neg (not_lt.mpr hvb), max_eq_left hvb]
                    · rw [if_pos hvb, max_eq_right hvb.le]
                  have h1 : bestLiftFold (some b) (.norm sv ls) = some (max b v) := by
                    rw [← hmax]
                    simp [bestLiftFold, hls, hsv, hp]
                  have h2 : goodLiftValues (.norm sv ls :: l) = v :: goodLiftValues l := by
                    simp [goodLiftValues, List.filterMap_cons, hls, hsv, hp]
                  rw [h1, h2, ih (max b v), List.foldl_cons]
          · have h1 : bestLiftFold (some b) (.norm sv ls) = some b := by
              simp [bestLiftFold, hls]
            have h2 : goodLiftValues (.norm sv ls :: l) = goodLiftValues l := by
              simp [goodLiftValues, List.filterMap_cons, hls]
            rw [h1, h2]
            exact ih b

theorem computeBestLift_eq_max (l : List AttemptVal) :
    computeBestLift l = (goodLiftValues l).max? := by
  unfold computeBestLift
  induction l with
  | nil => rfl
  | cons a l ih =>
      rw [List.foldl_cons]
      cases a with
      | jnull => exact ih
      | v2 v os => exact ih
      | num n => exact ih
      | str s => exact ih
      | norm sv ls =>
          by_cases hls : ls = "good"
          · by_cases hsv : sv = ""
            · have h1 : bestLiftFold none (.norm sv ls) = none := by
                simp [bestLiftFold, hls, hsv]
              have h2 : goodLiftValues (.norm sv ls :: l) = goodLiftValues l := by
                simp [goodLiftValues, List.filterMap_cons, hls, hsv]
              rw [h1, h2]
              exact ih
            · cases hp : jsParseFloat sv with
              | none =>
                  have h1 : bestLiftFold none (.norm sv ls) = none := by
                    simp [bestLiftFold, hls, hsv, hp]
                  have h2 : goodLiftValues (.norm sv ls :: l) = goodLiftValues l := by
                    simp [goodLiftValues, List.filterMap_cons, hls, hsv, hp]
                  rw [h1, h2]
                  exact ih
              | some v =>
                  have h1 : bestLiftFold none (.norm sv ls) = some v := by
                    simp [bestLiftFold, hls, hsv, hp]
                  have h2 : goodLiftValues (.norm sv ls :: l) = v :: goodLiftValues l := by
                    simp [goodLiftValues, List.filterMap_cons, hls, hsv, hp]
                  rw [h1, h2, computeBestLift_go]
                  rfl
          · have h1 : bestLiftFold none (.norm sv ls) = none := by
              simp [bestLiftFold, hls]
            have h2 : goodLiftValues (.norm sv ls :: l) = goodLiftValues l := by
              simp [goodLiftValues, List.filterMap_cons, hls]
            rw [h1, h2]
            exact ih

theorem flattenFields_bestSnatch (tm : List (String × String)) (o : JsObj)
    (xs : List AttemptVal)
    (hb : jget o "bestSnatch" = none ∨ jget o "bestSnatch" = some (.str "-"))
    (hs : jget o "sattempts" = some (.attArr xs)) :
    jget (flattenFields tm o) "bestSnatch" =
      some (match computeBestLift (xs.map normalizeAttemptValue) with
            | some b => JsLite.num b
            | none => JsLite.null) := by
  unfold flattenFields
  apply bestLiftsStep_bestSnatch
  · rw [attemptsStep_jget _ _ (by decide) (by decide),
        yearOfBirthStep_jget _ _ (by decide), categoryStep_jget _ _ (by decide),
        teamNameStep_jget _ _ _ (by decide), fullNameStep_jget _ _ (by decide)]
    exact hb
  · rw [attemptsStep_sattempts,
        yearOfBirthStep_jget _ _ (by decide), categoryStep_jget _ _ (by decide),
        teamNameStep_jget _ _ _ (by decide), fullNameStep_jget _ _ (by decide), hs]

theorem flattenFields_bestCleanJerk (tm : List (String × String)) (o : JsObj)
    (ys : List AttemptVal)
    (hb : jget o "bestCleanJerk" = none ∨ jget o "bestCleanJerk" = some (.str "-"))
    (hc : jget o "cattempts" = some (.attArr ys)) :
    jget (flattenFields tm o) "bestCleanJerk" =
      some (match computeBestLift (ys.map normalizeAttemptValue) with
            | some b => JsLite.num b
            | none => JsLite.null) := by
  unfold flattenFields
  apply bestLiftsStep_bestCleanJerk
  · rw [attemptsStep_jget _ _ (by decide) (by decide),
        yearOfBirthStep_jget _ _ (by decide), categoryStep_jget _ _ (by decide),
        teamNameStep_jget _ _ _ (by decide), fullNameStep_jget _ _ (by decide)]
    exact hb
  · rw [attemptsStep_cattempts,
        yearOfBirthStep_jget _ _ (by decide), categoryStep_jget _ _ (by decide),
        teamNameStep_jget _ _ _ (by decide), fullNameStep_jget _ _ (by decide), hc]

theorem mergeSA_fopVersions (st : HubState) (now : Nat) (f : String) :
    (mergeSessionAthletesIntoDatabase st now f).fopVersions = st.fopVersions := by
  unfold mergeSessionAthletesIntoDatabase
  repeat (first | rfl | split | dsimp only)

theorem mergeSA_fopUpdates (st : HubState) (now : Nat) (f : String) :
    (mergeSessionAthletesIntoDatabase st now f).fopUpdates = st.fopUpdates := by
  unfold mergeSessionAthletesIntoDatabase
  repeat (first | rfl | split | dsimp only)

theorem mergeSA_fopSessionStatus (st : HubState) (now : Nat) (f : String) :
    (mergeSessionAthletesIntoDatabase st now f).fopSessionStatus = st.fopSessionStatus := by
  unfold mergeSessionAthletesIntoDatabase
  repeat (first | rfl | split | dsimp only)

theorem mergeSA_translations (st : HubState) (now : Nat) (f : String) :
    (mergeSessionAthletesIntoDatabase st now f).translations = st.translations := by
  unfold mergeSessionAthletesIntoDatabase
  repeat (first | rfl | split | dsimp only)

theorem mergeSA_translationsReady (st : HubState) (now : Nat) (f : String) :
    (mergeSessionAthletesIntoDatabase st now f).translationsReady = st.translationsReady := by
  unfold mergeSessionAthletesIntoDatabase
  repeat (first | rfl | split | dsimp only)

theorem inc_getFopStateVersion (st : HubState) (f g : String) :
    getFopStateVersion (incrementFopVersion st f) g =
      if g = f then getFopStateVersion st f + 1 else getFopStateVersion st g := by
  unfold getFopStateVersion incrementFopVersion
  by_cases hg : g = f
  · subst hg; rw [alGet_alSet_self, if_pos rfl]; rfl
  · rw [alGet_alSet_ne _ _ _ _ hg, if_neg hg]

theorem inc_getFopStateVersion_le (st : HubState) (f g : String) :
    getFopStateVersion st g ≤ getFopStateVersion (incrementFopVersion st f) g := by
  rw [inc_getFopStateVersion]
  by_cases hg : g = f
  · subst hg; simp
  · simp [hg]

theorem foldlInc_version_le (l : List String) (st : HubState) (g : String) :
    getFopStateVersion st g ≤ getFopStateVersion (l.foldl incrementFopVersion st) g := by
  induction l generalizing st with
  | nil => exact Nat.le_refl _
  | cons f rest ih =>
      exact Nat.le_trans (inc_getFopStateVersion_le st f g) (ih (incrementFopVersion st f))

theorem foldlInc_translations (l : List String) (st : HubState) :
    (l.foldl incrementFopVersion st).translations = st.translations := by
  induction l generalizing st with
  | nil => rfl
  | cons f rest ih => exact (ih (incrementFopVersion st f)).trans rfl

theorem foldlInc_translationsReady (l : List String) (st : HubState) :
    (l.foldl incrementFopVersion st).translationsReady = st.translationsReady := by
  induction l generalizing st with
  | nil => rfl
  | cons f rest ih => exact (ih (incrementFopVersion st f)).trans rfl

theorem main_translations (st : HubState) (now : Nat) (p : Payload) (mt : String) :
    (handleOwlcmsMessageMain st now p mt).1.translations = st.translations := by
  simp only [handleOwlcmsMessageMain]
  split <;> simp [mergeSA_translations, incrementFopVersion]

theorem main_translationsReady (st : HubState) (now : Nat) (p : Payload) (mt : String) :
    (handleOwlcmsMessageMain st now p mt).1.translationsReady = st.translationsReady := by
  simp only [handleOwlcmsMessageMain]
  split <;> simp [mergeSA_translationsReady, incrementFopVersion]

theorem main_version_eq (st : HubState) (now : Nat) (p : Payload) (mt : String) :
    getFopStateVersion (handleOwlcmsMessageMain st now p mt).1 (resolveFopName p) =
      getFopStateVersion st (resolveFopName p) + 1 := by
  simp only [handleOwlcmsMessageMain]
  split <;>
    simp [getFopStateVersion, incrementFopVersion, mergeSA_fopVersions, alGet_alSet_self]

theorem main_version_le (st : HubState) (now : Nat) (p : Payload) (mt : String)
    (g : String) :
    getFopStateVersion st g ≤ getFopStateVersion (handleOwlcmsMessageMain st now p mt).1 g := by
  simp only [handleOwlcmsMessageMain]
  split <;>
  · simp only [getFopStateVersion, incrementFopVersion, mergeSA_fopVersions]
    rw [alGet_alSet]
    by_cases hg : g = resolveFopName p
    · subst hg; simp
    · rw [if_neg hg]

theorem main_fopUpdate_at (st : HubState) (now : Nat) (p : Payload) (mt : String) :
    alGet (handleOwlcmsMessageMain st now p mt).1.fopUpdates (resolveFopName p) =
      some (foldFopSnapshot { st with hasConfirmedFops := true } now p mt
        (resolveFopName p)) := by
  simp only [handleOwlcmsMessageMain]
  split <;> simp [mergeSA_fopUpdates, incrementFopVersion, alGet_alSet_self]

theorem foldFopSnapshot_lastDataUpdate (st : HubState) (now : Nat) (p : Payload)
    (mt : String) (f : String) :
    (foldFopSnapshot st now p mt f).lastDataUpdate =
      if (mt = "timer" || mt = "decision") then
        (match alGet st.fopUpdates f with
         | some s => if s.lastDataUpdate = 0 then now else s.lastDataUpdate
         | none => now)
      else now := rfl

theorem hom_translations (st : HubState) (now : Nat) (p : Payload) (mt : String) :
    (handleOwlcmsMessage st now p mt).1.translations = st.translations := by
  simp only [handleOwlcmsMessage]
  split
  · rfl
  · split
    · rfl
    · exact main_translations { st with messagesReceived := st.messagesReceived + 1 } now p mt

theorem hom_translationsReady (st : HubState) (now : Nat) (p : Payload) (mt : String) :
    (handleOwlcmsMessage st now p mt).1.translationsReady = st.translationsReady := by
  simp only [handleOwlcmsMessage]
  split
  · rfl
  · split
    · rfl
    · exact main_translationsReady { st with messagesReceived := st.messagesReceived + 1 } now p mt

theorem hom_version_le (st : HubState) (now : Nat) (p : Payload) (mt : String)
    (g : String) :
    getFopStateVersion st g ≤ getFopStateVersion (handleOwlcmsMessage st now p mt).1 g := by
  simp only [handleOwlcmsMessage]
  split
  · exact Nat.le_refl _
  · split
    · exact Nat.le_refl _
    · exact main_version_le { st with messagesReceived := st.messagesReceived + 1 } now p mt g

theorem hfd_translations (st : HubState) (now : Nat) (input : DbInput) :
    (handleFullCompetitionData st now input).1.translations = st.translations := by
  simp only [handleFullCompetitionData]
  repeat (first | rfl | split)
  all_goals simp [foldlInc_translations, incrementFopVersion]

theorem hfd_translationsReady (st : HubState) (now : Nat) (input : DbInput) :
    (handleFullCompetitionData st now input).1.translationsReady = st.translationsReady := by
  simp only [handleFullCompetitionData]
  repeat (first | rfl | split)
  all_goals simp [foldlInc_translationsReady, incrementFopVersion]

theorem hfd_version_le (st : HubState) (now : Nat) (input : DbInput) (g : String) :
    getFopStateVersion st g ≤ getFopStateVersion (handleFullCompetitionData st now input).1 g := by
  simp only [handleFullCompetitionData]
  repeat (first | rfl | split)
  all_goals
    first
    | exact Nat.le_refl _
    | (simp only [getFopStateVersion]
       exact Nat.le_refl _)
    | (refine Nat.le_trans ?_ (foldlInc_version_le _ _ _); exact Nat.le_refl _)
    | (refine Nat.le_trans ?_ (inc_getFopStateVersion_le _ _ _); exact Nat.le_refl _)

theorem hom_version_eq (st : HubState) (now : Nat) (p : Payload) (mt : String)
    (h1 : st.isLoadingDatabase = none)
    (h2 : ¬(st.databaseRequested > 0 ∧ now - st.databaseRequested < 1000)) :
    getFopStateVersion (handleOwlcmsMessage st now p mt).1 (resolveFopName p) =
      getFopStateVersion st (resolveFopName p) + 1 := by
  simp only [handleOwlcmsMessage]
  rw [if_neg (by simp [h1]),
      if_neg (by rw [Bool.and_eq_true, decide_eq_true_eq, decide_eq_true_eq]; exact h2)]
  exact main_version_eq { st with messagesReceived := st.messagesReceived + 1 } now p mt

theorem hom_lastDataUpdate_data (st : HubState) (now : Nat) (p : Payload) (mt : String)
    (h1 : st.isLoadingDatabase = none)
    (h2 : ¬(st.databaseRequested > 0 ∧ now - st.databaseRequested < 1000))
    (hmt : ¬(mt = "timer" ∨ mt = "decision")) :
    (alGet (handleOwlcmsMessage st now p mt).1.fopUpdates (resolveFopName p)).map
        (fun s => s.lastDataUpdate) = some now := by
  simp only [handleOwlcmsMessage]
  rw [if_neg (by simp [h1]),
      if_neg (by rw [Bool.and_eq_true, decide_eq_true_eq, decide_eq_true_eq]; exact h2)]
  rw [main_fopUpdate_at]
  simp [foldFopSnapshot_lastDataUpdate, hmt]

theorem hom_lastDataUpdate_timer (st : HubState) (now : Nat) (p : Payload) (mt : String)
    (h1 : st.isLoadingDatabase = none)
    (h2 : ¬(st.databaseRequested > 0 ∧ now - st.databaseRequested < 1000))
    (hmt : mt = "timer" ∨ mt = "decision")
    (prevSnap : FopSnapshot)
    (hprev : alGet st.fopUpdates (resolveFopName p) = some prevSnap)
    (hnz : prevSnap.lastDataUpdate ≠ 0) :
    (alGet (handleOwlcmsMessage st now p mt).1.fopUpdates (resolveFopName p)).map
        (fun s => s.lastDataUpdate) = some prevSnap.lastDataUpdate := by
  simp only [handleOwlcmsMessage]
  rw [if_neg (by simp [h1]),
      if_neg (by rw [Bool.and_eq_true, decide_eq_true_eq, decide_eq_true_eq]; exact h2)]
  rw [main_fopUpdate_at]
  simp [foldFopSnapshot_lastDataUpdate, hmt, hprev, hnz]

theorem hom_waiting (st : HubState) (now : Nat) (p : Payload) (mt : String)
    (h1 : st.isLoadingDatabase = none)
    (h2 : st.databaseRequested > 0) (h3 : now - st.databaseRequested < 1000) :
    handleOwlcmsMessage st now p mt =
      ({ st with messagesReceived := st.messagesReceived + 1 },
       { accepted := false, reason := some "waiting_for_database", retry := true }) := by
  simp only [handleOwlcmsMessage]
  rw [if_neg (by simp [h1]), if_pos (by simp [h2, h3])]

/-! ## Claim C1 -/

/-- C1 counterexample: on a hub whose FOP `A` already folded one update
(version 1, `lastDataUpdate` 1000), a `timer` frame bumps the version counter
from 1 to 2 while leaving `lastDataUpdate` at 1000 — refuting the claim that
timer/decision frames do not bump the version counter. -/
theorem C1_counterexample :
    getFopStateVersion c1BaseState "A" = 1 ∧
    getFopStateVersion ((handleOwlcmsMessage c1BaseState 2000 timerPayload "timer").1) "A" = 2 ∧
    (alGet ((handleOwlcmsMessage c1BaseState 2000 timerPayload "timer").1).fopUpdates "A").map
        (fun s => s.lastDataUpdate) = some 1000 :=
  ⟨by decide, by decide, by decide⟩

/-- C1 (amended): every frame that passes the loading/428-debounce gates —
update, timer and decision alike — increments the FOP's version counter by
exactly one (so update frames strictly increase it); an update frame sets
`lastDataUpdate` to the arrival time, while a timer or decision frame on a FOP
with an existing snapshot leaves `lastDataUpdate` unchanged. -/
theorem C1_version_and_lastDataUpdate
    (st : HubState) (now : Nat) (p : Payload) (mt : String)
    (h1 : st.isLoadingDatabase = none)
    (h2 : ¬(st.databaseRequested > 0 ∧ now - st.databaseRequested < 1000)) :
    (getFopStateVersion (handleOwlcmsMessage st now p mt).1 (resolveFopName p) =
       getFopStateVersion st (resolveFopName p) + 1) ∧
    (¬(mt = "timer" ∨ mt = "decision") →
       (alGet (handleOwlcmsMessage st now p mt).1.fopUpdates (resolveFopName p)).map
           (fun s => s.lastDataUpdate) = some now) ∧
    (∀ prevSnap : FopSnapshot, (mt = "timer" ∨ mt = "decision") →
       alGet st.fopUpdates (resolveFopName p) = some prevSnap →
       prevSnap.lastDataUpdate ≠ 0 →
       (alGet (handleOwlcmsMessage st now p mt).1.fopUpdates (resolveFopName p)).map
           (fun s => s.lastDataUpdate) = some prevSnap.lastDataUpdate) :=
  ⟨hom_version_eq st now p mt h1 h2,
   fun hmt => hom_lastDataUpdate_data st now p mt h1 h2 hmt,
   fun prevSnap hmt hprev hnz =>
     hom_lastDataUpdate_timer st now p mt h1 h2 hmt prevSnap hprev hnz⟩

/-- C1 witness: the amended theorem evaluated on the concrete one-update hub
and a concrete timer frame. -/
theorem C1_witness :
    getFopStateVersion ((handleOwlcmsMessage c1BaseState 2000 timerPayload "timer").1) "A" =
      getFopStateVersion c1BaseState "A" + 1 ∧
    (alGet ((handleOwlcmsMessage c1BaseState 2000 timerPayload "timer").1).fopUpdates "A").map
        (fun s => s.lastDataUpdate) = some c1PrevSnap.lastDataUpdate ∧
    c1PrevSnap.lastDataUpdate = 1000 := by
  have h := C1_version_and_lastDataUpdate c1BaseState 2000 timerPayload "timer"
    (by decide) (by decide)
  exact ⟨h.1, h.2.2 c1PrevSnap (Or.inl rfl) (by decide) (by decide), by decide⟩

/-! ## Claim C10 -/

theorem runTrace_fst (ops : List HubOp) (st : HubState) (ev : List String) :
    (ops.foldl (fun acc op => ((stepHub acc.1 op).1, acc.2 ++ (stepHub acc.1 op).2))
        (st, ev)).1 = (runTrace st ops).1 := by
  induction ops generalizing st ev with
  | nil => rfl
  | cons op rest ih =>
      simp only [runTrace, List.foldl_cons]
      rw [ih ((stepHub st op).1) (ev ++ (stepHub st op).2),
          ih ((stepHub st op).1) ([] ++ (stepHub st op).2)]

theorem runTrace_cons_fst (st : HubState) (op : HubOp) (ops : List HubOp) :
    (runTrace st (op :: ops)).1 = (runTrace (stepHub st op).1 ops).1 := by
  simp only [runTrace, List.foldl_cons]
  exact runTrace_fst ops ((stepHub st op).1) ([] ++ (stepHub st op).2)

/-- C10: per-FOP version counters are non-decreasing across every hub
operation — message folding, database loads, translation writes, translation
completion, and `refresh()` — and `refresh()` (the disconnect-time full reset)
leaves the version-counter table exactly unchanged, so counters continue from
their pre-reset values after a reconnect; consequently the counter is
non-decreasing along any operation trace. -/
theorem C10_version_monotone :
    (∀ (st : HubState) (op : HubOp) (fop : String),
       getFopStateVersion st fop ≤ getFopStateVersion (stepHub st op).1 fop) ∧
    (∀ st : HubState, (refresh st).1.fopVersions = st.fopVersions) ∧
    (∀ (st : HubState) (ops : List HubOp) (fop : String),
       getFopStateVersion st fop ≤ getFopStateVersion (runTrace st ops).1 fop) := by
  have hstep : ∀ (st : HubState) (op : HubOp) (fop : String),
      getFopStateVersion st fop ≤ getFopStateVersion (stepHub st op).1 fop := by
    intro st op fop
    cases op with
    | message now p mt => exact hom_version_le st now p mt fop
    | fullData now i => exact hfd_version_le st now i fop
    | setTr l m => exact Nat.le_refl _
    | markTrComplete =>
        simp only [stepHub, markTranslationsComplete]
        split <;> exact Nat.le_refl _
    | doRefresh => exact Nat.le_refl _
  refine ⟨hstep, fun st => rfl, ?_⟩
  intro st ops
  induction ops generalizing st with
  | nil => intro fop; exact Nat.le_refl _
  | cons op rest ih =>
      intro fop
      have h1 := hstep st op fop
      have h2 := ih (stepHub st op).1 fop
      calc getFopStateVersion st fop
          ≤ getFopStateVersion (stepHub st op).1 fop := h1
        _ ≤ getFopStateVersion (runTrace (stepHub st op).1 rest).1 fop := h2
        _ = getFopStateVersion (runTrace st (op :: rest)).1 fop := by
              rw [runTrace_cons_fst]

/-! ## Claim C4 -/

/-- C4 counterexample: with the session marked done, an update frame carrying
no `uiEvent` at all (and no timer/decision event type) leaves `isDone = true`,
although its `uiEvent` is not `"GroupDone"` — refuting "returns to
`isDone=false` on any update whose uiEvent is not GroupDone". -/
theorem C4_counterexample :
    ((updateSessionStatus (some doneStatus) 20 {}).1).isDone = true ∧
    ({} : Payload).uiEvent ≠ some "GroupDone" :=
  ⟨by decide, by decide⟩

/-- C4 (amended): the per-FOP session status becomes done exactly when the
frame carries `uiEvent == "GroupDone"` or `breakType == "GROUP_DONE"`; it
returns to not-done exactly when, while done, the frame carries a truthy
`uiEvent`, a timer event type, or a decision event type (an update with none
of these leaves the done state unchanged); and the hub's completion/reopen
notifications are produced exactly on those edge transitions, never while
already in the corresponding state. -/
theorem C4_session_lifecycle (prev : Option SessionStatus) (now : Nat) (p : Payload) :
    ((updateSessionStatus prev now p).1.isDone = true ↔
      (sessionGroupDoneCond p ∨
        ((prev.getD { isDone := false, sessionName := "", lastActivity := now }).isDone = true ∧
         ¬ sessionActivityCond p))) ∧
    ((updateSessionStatus prev now p).2.1 = true ↔
      (sessionGroupDoneCond p ∧
        (prev.getD { isDone := false, sessionName := "", lastActivity := now }).isDone = false)) ∧
    ((updateSessionStatus prev now p).2.2 = true ↔
      (¬ sessionGroupDoneCond p ∧
        (prev.getD { isDone := false, sessionName := "", lastActivity := now }).isDone = true ∧
        sessionActivityCond p)) := by
  cases hu : jsStrTruthy p.uiEvent <;>
  cases ha : jsStrTruthy p.athleteTimerEventType <;>
  cases hd : jsStrTruthy p.decisionEventType <;>
  cases hw : (prev.getD { isDone := false, sessionName := "", lastActivity := now }).isDone <;>
  by_cases hge : p.uiEvent = some "GroupDone" <;>
  by_cases hgb : jsStrOr p.breakType "" = "GROUP_DONE" <;>
  simp_all [updateSessionStatus, sessionGroupDoneCond, sessionActivityCond, jsStrTruthy,
    jsStrOr]

/-- C2 counterexample: the attempt normalization is element-wise and never pads,
so a session athlete whose `sattempts` has a single element is flattened to a
single-element (not three-element) `sattempts` array: the claim's
`sattempts.length == 3` fails. -/
theorem C2_counterexample :
    jget c2CounterFlat "sattempts" = some (.attArr [.norm "100" "good"]) ∧
    attArrLen (jget c2CounterFlat "sattempts") = some 1 ∧
    (some 1 : Option Nat) ≠ some 3 :=
  ⟨by decide, by decide, by decide⟩

/-- C2 (amended): for every flattened session athlete, `_normalizeAttemptValue`
is mapped element-wise over `sattempts` and `cattempts`, so each output array
has exactly the length of the producer's array (three exactly when the producer
sent three); and for inputs of the claim's shapes (null/missing,
`{value, status}` with a possibly-null producer status, legacy signed numbers,
strings) every element is a `{stringValue, liftStatus}` record whose
`liftStatus` lies in the closed set {good, bad, current, next, request,
empty}. -/
theorem C2_attempt_normalization (tm : List (String × String)) (ck : Option String)
    (e : SessionEntry) (k : String) (fo : JsObj) (xs ys : List AttemptVal)
    (h : flattenEntry tm ck e = some (k, fo))
    (hs : jget (unwrapSessionEntry e) "sattempts" = some (.attArr xs))
    (hc : jget (unwrapSessionEntry e) "cattempts" = some (.attArr ys))
    (hpx : ∀ a ∈ xs, ClaimAttemptShape a)
    (hpy : ∀ a ∈ ys, ClaimAttemptShape a) :
    jget fo "sattempts" = some (.attArr (xs.map normalizeAttemptValue)) ∧
    jget fo "cattempts" = some (.attArr (ys.map normalizeAttemptValue)) ∧
    (xs.map normalizeAttemptValue).length = xs.length ∧
    (ys.map normalizeAttemptValue).length = ys.length ∧
    (∀ b ∈ xs.map normalizeAttemptValue,
      ∃ ls, b.liftStatusOf = some ls ∧ ls ∈ validLiftStatuses) ∧
    (∀ b ∈ ys.map normalizeAttemptValue,
      ∃ ls, b.liftStatusOf = some ls ∧ ls ∈ validLiftStatuses) := by
  have hfo := flattenEntry_inv tm ck e k fo h
  subst hfo
  refine ⟨?_, ?_, by simp, by simp, ?_, ?_⟩
  · rw [finishEntry_jget _ _ _ _ (by decide) (by decide), flattenFields_sattempts, hs]
  · rw [finishEntry_jget _ _ _ _ (by decide) (by decide), flattenFields_cattempts, hc]
  · intro b hb
    rcases List.mem_map.mp hb with ⟨a, ha, rfl⟩
    exact normalizeAttemptValue_closed a (hpx a ha)
  · intro b hb
    rcases List.mem_map.mp hb with ⟨a, ha, rfl⟩
    exact normalizeAttemptValue_closed a (hpy a ha)

/-- C2 witness: the three-element witness athlete (null, legacy number, V2
object; string, V2 without status, V2 null value) flattens to three-element
normalized arrays with statuses in the closed set. -/
theorem C2_witness :
    jget c2WitnessFlat "sattempts" =
      some (.attArr (c2WitnessAtts.map normalizeAttemptValue)) ∧
    jget c2WitnessFlat "cattempts" =
      some (.attArr (c2WitnessCatts.map normalizeAttemptValue)) ∧
    (c2WitnessAtts.map normalizeAttemptValue).length = c2WitnessAtts.length ∧
    (c2WitnessCatts.map normalizeAttemptValue).length = c2WitnessCatts.length ∧
    (∀ b ∈ c2WitnessAtts.map normalizeAttemptValue,
      ∃ ls, b.liftStatusOf = some ls ∧ ls ∈ validLiftStatuses) ∧
    (∀ b ∈ c2WitnessCatts.map normalizeAttemptValue,
      ∃ ls, b.liftStatusOf = some ls ∧ ls ∈ validLiftStatuses) :=
  C2_attempt_normalization [] none c2WitnessEntry "1" c2WitnessFlat
    c2WitnessAtts c2WitnessCatts
    (by decide) (by decide) (by decide)
    (by
      intro a ha
      simp only [c2WitnessAtts, List.mem_cons, List.not_mem_nil, or_false] at ha
      rcases ha with rfl | rfl | rfl
      · trivial
      · trivial
      · exact Or.inr ⟨"good", rfl, by decide⟩)
    (by
      intro a ha
      simp only [c2WitnessCatts, List.mem_cons, List.not_mem_nil, or_false] at ha
      rcases ha with rfl | rfl | rfl
      · trivial
      · exact Or.inl rfl
      · exact Or.inl rfl)

/-- C9 counterexample: an athlete with all six attempts null gets
`bestSnatch` and `bestCleanJerk` set to JS `null` (the number-or-null result
of `_computeBestLift`), not to the string `"-"` the claim asserts. -/
theorem C9_counterexample :
    jget c9CounterFlat "bestSnatch" = some JsLite.null ∧
    jget c9CounterFlat "bestCleanJerk" = some JsLite.null ∧
    (some JsLite.null : Option JsLite) ≠ some (.str "-") :=
  ⟨by decide, by decide, by decide⟩

/-- C9 (amended): when the producer left `bestSnatch`/`bestCleanJerk` missing
or `"-"`, the flattened athlete's `bestSnatch` is the numeric maximum of the
parsed `stringValue`s over normalized `sattempts` entries with
`liftStatus == "good"`, and JS `null` (not the string `"-"`) when no good lift
exists; symmetrically for `bestCleanJerk` over `cattempts`. -/
theorem C9_best_lifts (tm : List (String × String)) (ck : Option String)
    (e : SessionEntry) (k : String) (fo : JsObj) (xs ys : List AttemptVal)
    (h : flattenEntry tm ck e = some (k, fo))
    (hbs : jget (unwrapSessionEntry e) "bestSnatch" = none ∨
      jget (unwrapSessionEntry e) "bestSnatch" = some (.str "-"))
    (hbc : jget (unwrapSessionEntry e) "bestCleanJerk" = none ∨
      jget (unwrapSessionEntry e) "bestCleanJerk" = some (.str "-"))
    (hs : jget (unwrapSessionEntry e) "sattempts" = some (.attArr xs))
    (hc : jget (unwrapSessionEntry e) "cattempts" = some (.attArr ys)) :
    jget fo "bestSnatch" =
      some (match (goodLiftValues (xs.map normalizeAttemptValue)).max? with
            | some b => JsLite.num b
            | none => JsLite.null) ∧
    jget fo "bestCleanJerk" =
      some (match (goodLiftValues (ys.map normalizeAttemptValue)).max? with
            | some b => JsLite.num b
            | none => JsLite.null) := by
  have hfo := flattenEntry_inv tm ck e k fo h
  subst hfo
  constructor
  · rw [finishEntry_jget _ _ _ _ (by decide) (by decide),
        flattenFields_bestSnatch tm _ xs hbs hs, computeBestLift_eq_max]
  · rw [finishEntry_jget _ _ _ _ (by decide) (by decide),
        flattenFields_bestCleanJerk tm _ ys hbc hc, computeBestLift_eq_max]

/-- C9 witness: good snatches 100 and 105 with a failed 110 give
`bestSnatch == 105`; all-null `cattempts` give `bestCleanJerk == null`. -/
theorem C9_witness :
    (jget c9WitnessFlat "bestSnatch" = some (JsLite.num 105) ∧
     jget c9WitnessFlat "bestCleanJerk" = some JsLite.null) ∧
    (jget c9WitnessFlat "bestSnatch" =
      some (match (goodLiftValues (c9WitnessAtts.map normalizeAttemptValue)).max? with
            | some b => JsLite.num b
            | none => JsLite.null) ∧
     jget c9WitnessFlat "bestCleanJerk" =
      some (match (goodLiftValues (c9WitnessCatts.map normalizeAttemptValue)).max? with
            | some b => JsLite.num b
            | none => JsLite.null)) :=
  ⟨⟨by decide, by decide⟩,
   C9_best_lifts [] none c9WitnessEntry "1" c9WitnessFlat c9WitnessAtts c9WitnessCatts
     (by decide) (by decide) (by decide) (by decide) (by decide)⟩

/-- C3 counterexample: after the S3 frame the enriched current athlete has
`currentAttempt == 1`, not `2`: the payload carries no `attemptsDone`, so
`attemptsDone || 0` is `0` and `currentAttempt = (0 % 3) + 1 = 1` (the code
never counts taken attempts from the attempt arrays). -/
theorem C3_counterexample :
    (getCurrentAthlete s3State "A").map (fun a => a.currentAttempt) = some 1 ∧
    (some 1 : Option Int) ≠ some 2 :=
  ⟨by decide, by decide⟩

/-- C3 (amended): after ingesting the S3 update frame,
`getCurrentAthlete({fopName:"A"})` returns an enriched athlete with
`currentAttempt == 1` (from `attemptsDone || 0`, the payload having no
`attemptsDone`), `currentLiftType == "snatch"` and `currentWeight == 100`
(the `snatch1Declaration`); and for every athlete record and field prefix,
`_extractWeight` resolves the weight as the first defined of
`change2 > change1 > declaration > automaticProgression`. -/
theorem C3_current_attempt_and_weight (athlete : JsObj) (p : String) :
    (getCurrentAthlete s3State "A").map
        (fun a => (a.currentAttempt, a.currentLiftType, a.currentWeight)) =
      some (1, "snatch", some 100) ∧
    extractWeight athlete p =
      (parseNumeric (jget athlete (p ++ "Change2"))).orElse (fun _ =>
        (parseNumeric (jget athlete (p ++ "Change1"))).orElse (fun _ =>
          (parseNumeric (jget athlete (p ++ "Declaration"))).orElse (fun _ =>
            parseNumeric (jget athlete (p ++ "AutomaticProgression"))))) := by
  refine ⟨by decide, ?_⟩
  unfold extractWeight
  cases parseNumeric (jget athlete (p ++ "Change2")) with
  | some w => rfl
  | none =>
      cases parseNumeric (jget athlete (p ++ "Change1")) with
      | some w => rfl
      | none =>
          cases parseNumeric (jget athlete (p ++ "Declaration")) with
          | some w => rfl
          | none => rfl

/-- C7 counterexample: with a database requested at 500 and an update frame at
900 (inside the 1000ms window), the hub-level result is
`waiting_for_database`/retry, but the WebSocket responder answers a NEW 428
`missing_preconditions` envelope (the database being still missing), not the
claimed `{status:202, reason:"waiting_for_database", retry:true}`. -/
theorem C7_counterexample :
    (handleOwlcmsMessage c7state 900 c7Payload "update").2 =
      { accepted := false, reason := some "waiting_for_database", retry := true } ∧
    (handleUpdateMessage c7state 900 c7Payload).2.status = some 428 ∧
    (handleUpdateMessage c7state 900 c7Payload).2.reason = some "missing_preconditions" ∧
    (handleUpdateMessage c7state 900 c7Payload).2.retry = false :=
  ⟨by decide, by decide, by decide, by decide⟩

/-- C7 (amended): inside the 1000ms debounce window the hub handler returns
`{accepted:false, reason:"waiting_for_database", retry:true}` without touching
`databaseRequested` (no hub-level re-request); the responder for
update/timer/decision frames then answers the 428 `missing_preconditions`
envelope whenever preconditions are still missing (so the window does NOT stop
428 responses), and a bare
`{status:202, message:"Database load in progress, please retry"}` envelope —
with no `reason` or `retry` fields — when they are not. -/
theorem C7_debounce (st : HubState) (now : Nat) (p : Payload)
    (h1 : st.isLoadingDatabase = none)
    (h2 : st.databaseRequested > 0) (h3 : now - st.databaseRequested < 1000) :
    ((handleOwlcmsMessage st now p "update").2 =
      { accepted := false, reason := some "waiting_for_database", retry := true } ∧
     (handleOwlcmsMessage st now p "update").1.databaseRequested = st.databaseRequested) ∧
    (handleUpdateMessage st now p).2 =
      (if (getMissingPreconditions st).isEmpty then
        { status := some 202, message := some "Database load in progress, please retry" }
      else
        { status := some 428, message := some "Precondition Required: Missing required data",
          reason := some "missing_preconditions",
          missing := getMissingPreconditions st }) ∧
    (handleTimerMessage st now p).2 =
      (if (getMissingPreconditions st).isEmpty then
        { status := some 202, message := some "Database load in progress, please retry" }
      else
        { status := some 428, message := some "Precondition Required: Missing required data",
          reason := some "missing_preconditions",
          missing := getMissingPreconditions st }) ∧
    (handleDecisionMessage st now p).2 =
      (if (getMissingPreconditions st).isEmpty then
        { status := some 202, message := some "Database load in progress, please retry" }
      else
        { status := some 428, message := some "Precondition Required: Missing required data",
          reason := some "missing_preconditions",
          missing := getMissingPreconditions st }) := by
  have hmp : getMissingPreconditions
      { st with messagesReceived := st.messagesReceived + 1 } = getMissingPreconditions st := rfl
  refine ⟨⟨?_, ?_⟩, ?_, ?_, ?_⟩
  · rw [hom_waiting st now p "update" h1 h2 h3]
  · rw [hom_waiting st now p "update" h1 h2 h3]
  · simp only [handleUpdateMessage, hom_waiting st now p "update" h1 h2 h3, hmp]
    by_cases hm : (getMissingPreconditions st).isEmpty
    · simp [hm, mapHubResultToResponse]
    · simp [hm]
  · simp only [handleTimerMessage, hom_waiting st now p "timer" h1 h2 h3, hmp]
    by_cases hm : (getMissingPreconditions st).isEmpty
    · simp [hm, mapHubResultToResponse]
    · simp [hm]
  · simp only [handleDecisionMessage, hom_waiting st now p "decision" h1 h2 h3, hmp]
    by_cases hm : (getMissingPreconditions st).isEmpty
    · simp [hm, mapHubResultToResponse]
    · simp [hm]

/-- C7 witness: the debounce window is open at 900 after a request at 500; the
responder's answer on the concrete state is the 428 branch. -/
theorem C7_witness :
    (c7state.isLoadingDatabase = none ∧ c7state.databaseRequested > 0 ∧
     900 - c7state.databaseRequested < 1000) ∧
    (((handleOwlcmsMessage c7state 900 c7Payload "update").2 =
      { accepted := false, reason := some "waiting_for_database", retry := true } ∧
     (handleOwlcmsMessage c7state 900 c7Payload "update").1.databaseRequested =
        c7state.databaseRequested) ∧
    (handleUpdateMessage c7state 900 c7Payload).2 =
      (if (getMissingPreconditions c7state).isEmpty then
        { status := some 202, message := some "Database load in progress, please retry" }
      else
        { status := some 428, message := some "Precondition Required: Missing required data",
          reason := some "missing_preconditions",
          missing := getMissingPreconditions c7state }) ∧
    (handleTimerMessage c7state 900 c7Payload).2 =
      (if (getMissingPreconditions c7state).isEmpty then
        { status := some 202, message := some "Database load in progress, please retry" }
      else
        { status := some 428, message := some "Precondition Required: Missing required data",
          reason := some "missing_preconditions",
          missing := getMissingPreconditions c7state }) ∧
    (handleDecisionMessage c7state 900 c7Payload).2 =
      (if (getMissingPreconditions c7state).isEmpty then
        { status := some 202, message := some "Database load in progress, please retry" }
      else
        { status := some 428, message := some "Precondition Required: Missing required data",
          reason := some "missing_preconditions",
          missing := getMissingPreconditions c7state })) :=
  ⟨⟨by decide, by decide, by decide⟩,
   C7_debounce c7state 900 c7Payload (by decide) (by decide) (by decide)⟩

/-- C8: a text frame whose version is missing, or parses strictly below the
minimum protocol version, is answered with the
`{status:400, error, reason, details:{received, info}}` envelope and leaves the
hub state and connection state unchanged with no events emitted; a frame that
passes the version gate but fails `updateKey` authentication is answered 401
(connection closed) and likewise changes nothing. -/
theorem C8_reject_preserves_state (st : HubState) (conn : ConnState) (cfg : WsConfig)
    (now : Nat) (msg : TextMessage) (expected : String) (p : Payload) :
    ((msg.version = none ∨
       (∃ v pv pmin, msg.version = some v ∧ parseVersion v = some pv ∧
         parseVersion MINIMUM_PROTOCOL_VERSION = some pmin ∧
         compareVersionsParsed pv pmin < 0)) →
      handleTextFrame st conn cfg now msg =
        (st, conn,
         { status := some 400, error := some "Protocol version check failed",
           reason := (extractAndValidateVersion msg.version).error,
           detailsReceived := (extractAndValidateVersion msg.version).version,
           detailsInfo := some ("Please ensure OWLCMS is configured with the correct tracker " ++
             "WebSocket URL and is up to date") }, [])) ∧
    ((extractAndValidateVersion msg.version).valid = true →
     jsStrTruthy msg.type = true →
     msg.payload = some p →
     cfg.expectedKey = some expected →
     p.updateKey ≠ some expected →
      handleTextFrame st conn cfg now msg =
        (st, conn, { status := some 401, message := some "Access not authorized",
                     closed := true }, [])) := by
  constructor
  · intro hv
    have hvc : (extractAndValidateVersion msg.version).valid = false := by
      rcases hv with h | ⟨v, pv, pmin, hv1, hv2, hv3, hv4⟩
      · rw [h]; rfl
      · rw [hv1]
        have hve : v ≠ "" := by
          intro he
          rw [he, show parseVersion "" = none from rfl] at hv2
          exact Option.noConfusion hv2
        simp [extractAndValidateVersion, jsStrTruthy, hve, isVersionAcceptable, hv2, hv3, hv4]
    simp only [handleTextFrame]
    rw [if_pos (by rw [hvc]; rfl)]
  · intro hvalid htype hpayload hkey hne
    simp only [handleTextFrame]
    rw [if_neg (by rw [hvalid]; exact (by decide)),
        if_neg (by rw [htype, hpayload]; simp),
        hkey, hpayload]
    simp only [Option.getD_some]
    rw [if_pos hne]

/-- C8 witness: a frame carrying version 2.2.0 (below the 64.0.0 minimum) is
rejected 400 with the hub and connection untouched; a frame with a valid
version but the wrong `updateKey` against a keyed server is rejected 401 with
the hub and connection untouched. -/
theorem C8_witness :
    handleTextFrame initialHub freshConn keyedConfig 1000 oldVersionMsg =
      (initialHub, freshConn,
       { status := some 400, error := some "Protocol version check failed",
         reason := (extractAndValidateVersion oldVersionMsg.version).error,
         detailsReceived := (extractAndValidateVersion oldVersionMsg.version).version,
         detailsInfo := some ("Please ensure OWLCMS is configured with the correct tracker " ++
           "WebSocket URL and is up to date") }, []) ∧
    handleTextFrame initialHub freshConn keyedConfig 1000 badKeyMsg =
      (initialHub, freshConn,
       { status := some 401, message := some "Access not authorized", closed := true }, []) :=
  ⟨(C8_reject_preserves_state initialHub freshConn keyedConfig 1000 oldVersionMsg "secret"
      {}).1
    (Or.inr ⟨"2.2.0", (2, 2, 0), (64, 0, 0), by decide, by decide, by decide, by decide⟩),
   (C8_reject_preserves_state initialHub freshConn keyedConfig 1000 badKeyMsg "secret"
      { fop := some "A", updateKey := some "wrong" }).2
    (by decide) (by decide) (by decide) (by decide) (by decide)⟩

theorem setTranslations_ne_nil (store : TrStore) (loc : String) (m : Tmap) :
    setTranslations store loc m ≠ [] := by
  simp only [setTranslations]
  split
  · exact alSet_ne_nil _ _ _
  · intro h
    exact alSet_ne_nil _ _ _ (List.map_eq_nil_iff.mp h)

theorem stepHub_translations_inv (st : HubState) (op : HubOp)
    (h : st.translationsReady = true → st.translations ≠ []) :
    (stepHub st op).1.translationsReady = true → (stepHub st op).1.translations ≠ [] := by
  cases op with
  | message now p mt =>
      intro hr
      simp only [stepHub] at hr ⊢
      rw [hom_translations]
      exact h (by rw [← hom_translationsReady st now p mt]; exact hr)
  | fullData now i =>
      intro hr
      simp only [stepHub] at hr ⊢
      rw [hfd_translations]
      exact h (by rw [← hfd_translationsReady st now i]; exact hr)
  | setTr l m =>
      intro _
      exact setTranslations_ne_nil _ _ _
  | markTrComplete =>
      simp only [stepHub, markTranslationsComplete]
      by_cases hempty : st.translations.isEmpty
      · rw [if_pos hempty]
        exact h
      · rw [if_neg hempty]
        intro _ hnil
        exact hempty (by rw [show st.translations = [] from hnil]; rfl)
  | doRefresh =>
      intro hr
      simp [stepHub, refresh] at hr

theorem runTrace_translations_inv (ops : List HubOp) (st : HubState)
    (h : st.translationsReady = true → st.translations ≠ []) :
    (runTrace st ops).1.translationsReady = true → (runTrace st ops).1.translations ≠ [] := by
  induction ops generalizing st with
  | nil => exact h
  | cons op ops ih =>
      rw [runTrace_cons_fst]
      exact ih (stepHub st op).1 (stepHub_translations_inv st op h)

/-- C5 counterexample: after storing only a French locale, marking
translations complete, and two accepted full database loads, `isReady()` is
true while `getTranslations({locale:"en"})` is empty and `hub:ready` has been
emitted twice since the last reset. -/
theorem C5_counterexample :
    isReady c5Result.1 = true ∧
    hubGetTranslations c5Result.1 "en" = [] ∧
    (c5Result.2.filter (fun e => e = "hub:ready")).length = 2 ∧
    (2 : Nat) ≠ 1 :=
  ⟨by decide, by decide, by decide, by decide⟩

/-- C5 (amended): whenever `isReady()` returns true on a hub driven from the
initial state by any operation trace, `getDatabaseState().athletes` is
non-empty and the translation store holds at least one locale
(`translationsReady` is only ever set when the store is non-empty, and every
operation preserves that invariant); `getTranslations({locale:"en"})` may
nevertheless be empty, and `hub:ready` is not limited to one emission per
rebuild. -/
theorem C5_readiness (ops : List HubOp)
    (h : isReady (runTrace initialHub ops).1 = true) :
    (∃ db, (runTrace initialHub ops).1.databaseState = some db ∧ db.athletes ≠ []) ∧
    (runTrace initialHub ops).1.translations ≠ [] := by
  have h' := h
  unfold isReady at h'
  rw [Bool.and_eq_true] at h'
  obtain ⟨hdb, htr⟩ := h'
  constructor
  · cases hds : (runTrace initialHub ops).1.databaseState with
    | none => rw [hds] at hdb; exact absurd hdb (by decide)
    | some db =>
        rw [hds] at hdb
        have hdb2 : (!db.athletes.isEmpty) = true := hdb
        refine ⟨db, rfl, ?_⟩
        intro hnil
        rw [hnil] at hdb2
        exact absurd hdb2 (by decide)
  · exact runTrace_translations_inv ops initialHub (fun hc => absurd hc (by decide)) htr

/-- C5 witness: the C5 trace ends ready, so its database athletes and
translation store are non-empty. -/
theorem C5_witness :
    isReady (runTrace initialHub c5ops).1 = true ∧
    ((∃ db, (runTrace initialHub c5ops).1.databaseState = some db ∧ db.athletes ≠ []) ∧
     (runTrace initialHub c5ops).1.translations ≠ []) :=
  ⟨by decide, C5_readiness c5ops (by decide)⟩

theorem isPrefixOf_length (l1 l2 : List Char) (h : l1.isPrefixOf l2 = true) :
    l1.length ≤ l2.length := by
  induction l1 generalizing l2 with
  | nil => simp
  | cons a l ih =>
      cases l2 with
      | nil => simp [List.isPrefixOf] at h
      | cons b l2 =>
          simp only [List.isPrefixOf, Bool.and_eq_true] at h
          simpa using ih l2 h.2

theorem isPrefixOf_decomp (l1 l2 : List Char) (h : l1.isPrefixOf l2 = true) :
    ∃ t, l2 = l1 ++ t := by
  induction l1 generalizing l2 with
  | nil => exact ⟨l2, rfl⟩
  | cons a l ih =>
      cases l2 with
      | nil => simp [List.isPrefixOf] at h
      | cons b l2 =>
          simp only [List.isPrefixOf, Bool.and_eq_true, beq_iff_eq] at h
          obtain ⟨rfl, h2⟩ := h
          obtain ⟨t, rfl⟩ := ih l2 h2
          exact ⟨t, rfl⟩

theorem isPrefixOf_append_self (l1 t : List Char) : l1.isPrefixOf (l1 ++ t) = true := by
  induction l1 with
  | nil => simp [List.isPrefixOf]
  | cons a l ih => simp [List.isPrefixOf, ih]

theorem takeWhile_not_dash_contains (cs : List Char) (p : Char → Bool)
    (hp : p '-' = false) : ((cs.takeWhile p).contains '-') = false := by
  induction cs with
  | nil => rfl
  | cons c cs ih =>
      rw [List.takeWhile_cons]
      by_cases hc : p c = true
      · have hcd : ¬('-' = c) := by
          intro hh
          rw [← hh, hp] at hc
          exact Bool.noConfusion hc
        rw [if_pos hc, List.contains_cons, beq_eq_false_iff_ne.mpr hcd, ih]
        rfl
      · rw [if_neg hc]
        rfl

theorem takeWhile_dash_decomp (cs : List Char) (p : Char → Bool)
    (hp : p '-' = false) (hq : ∀ c, c ≠ '-' → p c = true)
    (h : cs.contains '-' = true) :
    ∃ t, cs = cs.takeWhile p ++ '-' :: t := by
  induction cs with
  | nil => simp at h
  | cons c cs ih =>
      by_cases hc : c = '-'
      · subst hc
        refine ⟨cs, ?_⟩
        rw [List.takeWhile_cons, if_neg (by rw [hp]; exact (by decide))]
        rfl
      · have h' : cs.contains '-' = true := by
          rw [List.contains_cons] at h
          have hcd : (('-' : Char) == c) = false := by
            rw [beq_eq_false_iff_ne]
            exact fun hh => hc hh.symm
          rw [hcd, Bool.false_or] at h
          exact h
        obtain ⟨t, ht⟩ := ih h'
        refine ⟨t, ?_⟩
        rw [List.takeWhile_cons, if_pos (hq c hc), List.cons_append, ← ht]

theorem takeWhile_append_dash (l1 t : List Char) (p : Char → Bool)
    (hp : p '-' = false) (hall : ∀ c ∈ l1, p c = true) :
    ((l1 ++ '-' :: t).takeWhile p) = l1 := by
  induction l1 with
  | nil => simp [List.takeWhile_cons, hp]
  | cons c l ih =>
      rw [List.cons_append, List.takeWhile_cons, if_pos (hall c (by simp))]
      rw [ih (fun c hc => hall c (by simp [hc]))]

theorem contains_append_dash (l1 t : List Char) : ((l1 ++ '-' :: t).contains '-') = true := by
  induction l1 with
  | nil => simp [List.contains_cons]
  | cons c l ih => simp [List.contains_cons, ih]

theorem not_dash_of_not_contains (cs : List Char) (h : cs.contains '-' = false)
    (c : Char) (hc : c ∈ cs) : c ≠ '-' := by
  induction cs with
  | nil => cases hc
  | cons a cs ih =>
      simp only [List.contains_cons, Bool.or_eq_false_iff] at h
      rcases List.mem_cons.mp hc with rfl | hmem
      · intro hd
        rw [hd] at h
        exact absurd h.1 (by simp)
      · exact ih h.2 hmem

theorem isRegionalLocale_baseOfLocale (L : String) :
    isRegionalLocale (baseOfLocale L) = false := by
  unfold isRegionalLocale baseOfLocale
  exact takeWhile_not_dash_contains L.toList _ (by decide)

theorem startsWithBaseDash_self (b : String) : startsWithBaseDash b b = false := by
  unfold startsWithBaseDash
  cases h : (b.toList ++ ['-']).isPrefixOf b.toList with
  | false => rfl
  | true =>
      exfalso
      have hl := isPrefixOf_length _ _ h
      simp at hl

theorem regional_decomp (L : String) (h : isRegionalLocale L = true) :
    ∃ t, L.toList = (baseOfLocale L).toList ++ '-' :: t := by
  unfold isRegionalLocale at h
  unfold baseOfLocale
  exact takeWhile_dash_decomp L.toList _ (by decide) (fun c hc => decide_eq_true hc) h

theorem startsWithBaseDash_of_regional (L : String) (h : isRegionalLocale L = true) :
    startsWithBaseDash (baseOfLocale L) L = true := by
  obtain ⟨t, ht⟩ := regional_decomp L h
  unfold startsWithBaseDash
  rw [ht, show (baseOfLocale L).toList ++ '-' :: t =
        ((baseOfLocale L).toList ++ ['-']) ++ t by simp]
  exact isPrefixOf_append_self _ _

theorem startsWithBaseDash_imp_regional (b L : String)
    (h : startsWithBaseDash b L = true) : isRegionalLocale L = true := by
  unfold startsWithBaseDash at h
  obtain ⟨t, ht⟩ := isPrefixOf_decomp _ _ h
  unfold isRegionalLocale
  rw [ht, show (b.toList ++ ['-']) ++ t = b.toList ++ '-' :: t by simp]
  exact contains_append_dash _ _

theorem baseOf_of_startsWith (b L : String) (hb : isRegionalLocale b = false)
    (h : startsWithBaseDash b L = true) : baseOfLocale L = b := by
  unfold startsWithBaseDash at h
  obtain ⟨t, ht⟩ := isPrefixOf_decomp _ _ h
  unfold baseOfLocale
  rw [ht, show (b.toList ++ ['-']) ++ t = b.toList ++ '-' :: t by simp,
      takeWhile_append_dash b.toList t _ (by decide)
        (fun c hc => decide_eq_true (not_dash_of_not_contains b.toList hb c hc))]
  rfl

theorem alGet_setTr_map (store : TrStore) (loc : String) (dec : Tmap) (k : String) :
    alGet (store.map (fun p => if startsWithBaseDash loc p.1
        then (p.1, tmerge dec p.2) else p)) k =
      (alGet store k).map (fun v => if startsWithBaseDash loc k then tmerge dec v else v) := by
  induction store with
  | nil => rfl
  | cons p rest ih =>
      rw [List.map_cons]
      by_cases hc : startsWithBaseDash loc p.1 = true
      · rw [if_pos hc, alGet_cons, alGet_cons]
        by_cases hp : p.1 = k
        · subst hp
          rw [if_pos rfl, if_pos rfl]
          simp [hc]
        · rw [if_neg (show ¬((p.1, tmerge dec p.2).1 = k) from hp), if_neg hp, ih]
      · rw [if_neg hc, alGet_cons, alGet_cons]
        by_cases hp : p.1 = k
        · subst hp
          rw [if_pos rfl, if_pos rfl]
          simp [hc]
        · rw [if_neg hp, if_neg hp, ih]

theorem setTranslations_regional (store : TrStore) (loc : String) (m : Tmap)
    (h : isRegionalLocale loc = true) :
    setTranslations store loc m =
      alSet store loc
        (match alGet store (baseOfLocale loc) with
         | some base => tmerge base (m.map (fun p => (p.1, decodeHTMLEntities p.2)))
         | none => m.map (fun p => (p.1, decodeHTMLEntities p.2))) := by
  unfold setTranslations
  rw [h]
  rfl

theorem setTranslations_base (store : TrStore) (loc : String) (m : Tmap)
    (h : isRegionalLocale loc = false) :
    setTranslations store loc m =
      (alSet store loc (m.map (fun p => (p.1, decodeHTMLEntities p.2)))).map
        (fun p => if startsWithBaseDash loc p.1
                  then (p.1, tmerge (m.map (fun q => (q.1, decodeHTMLEntities q.2))) p.2)
                  else p) := by
  unfold setTranslations
  rw [h]
  rfl

theorem setTranslations_superset (store : TrStore) (loc : String) (m : Tmap)
    (inv : ∀ L mL mB, isRegionalLocale L = true →
       alGet store L = some mL → alGet store (baseOfLocale L) = some mB →
       ∀ k, (alGet mB k).isSome → (alGet mL k).isSome) :
    ∀ L mL mB, isRegionalLocale L = true →
       alGet (setTranslations store loc m) L = some mL →
       alGet (setTranslations store loc m) (baseOfLocale L) = some mB →
       ∀ k, (alGet mB k).isSome → (alGet mL k).isSome := by
  intro L mL mB hreg hL hB k hk
  by_cases hloc : isRegionalLocale loc = true
  · rw [setTranslations_regional store loc m hloc] at hL hB
    have hBnr : isRegionalLocale (baseOfLocale L) = false := isRegionalLocale_baseOfLocale L
    have hBneloc : baseOfLocale L ≠ loc := by
      intro heq
      rw [heq, hloc] at hBnr
      exact Bool.noConfusion hBnr
    rw [alGet_alSet_ne _ _ _ _ hBneloc] at hB
    by_cases hLloc : L = loc
    · subst hLloc
      rw [alGet_alSet_self] at hL
      injection hL with hL
      rw [hB] at hL
      rw [← hL]
      exact alGet_tmerge_isSome_left _ _ _ hk
    · rw [alGet_alSet_ne _ _ _ _ hLloc] at hL
      exact inv L mL mB hreg hL hB k hk
  · have hlocb : isRegionalLocale loc = false := by
      revert hloc
      cases isRegionalLocale loc <;> simp
    rw [setTranslations_base store loc m hlocb] at hL hB
    rw [alGet_setTr_map] at hL hB
    have hswB : startsWithBaseDash loc (baseOfLocale L) = false := by
      cases hsw : startsWithBaseDash loc (baseOfLocale L) with
      | false => rfl
      | true =>
          have hr := startsWithBaseDash_imp_regional _ _ hsw
          rw [isRegionalLocale_baseOfLocale] at hr
          exact Bool.noConfusion hr
    simp only [hswB, Bool.false_eq_true, if_false, Option.map_id'] at hB
    have hLneloc : L ≠ loc := by
      intro heq
      rw [heq, hlocb] at hreg
      exact Bool.noConfusion hreg
    by_cases hBloc2 : baseOfLocale L = loc
    · rw [hBloc2, alGet_alSet_self] at hB
      injection hB with hB
      have hswL : startsWithBaseDash loc L = true := by
        rw [← hBloc2]
        exact startsWithBaseDash_of_regional L hreg
      simp only [hswL, if_true] at hL
      rw [alGet_alSet_ne _ _ _ _ hLneloc] at hL
      obtain ⟨old, hold, hml⟩ := Option.map_eq_some'.mp hL
      rw [← hml]
      exact alGet_tmerge_isSome_left _ _ _ (by rw [hB]; exact hk)
    · rw [alGet_alSet_ne _ _ _ _ hBloc2] at hB
      have hswL2 : startsWithBaseDash loc L = false := by
        cases hsw : startsWithBaseDash loc L with
        | false => rfl
        | true => exact absurd (baseOf_of_startsWith loc L hlocb hsw) hBloc2
      simp only [hswL2, Bool.false_eq_true, if_false, Option.map_id'] at hL
      rw [alGet_alSet_ne _ _ _ _ hLneloc] at hL
      exact inv L mL mB hreg hL hB k hk

theorem foldSets_superset (sets : List (String × Tmap)) (store : TrStore)
    (inv : ∀ L mL mB, isRegionalLocale L = true →
       alGet store L = some mL → alGet store (baseOfLocale L) = some mB →
       ∀ k, (alGet mB k).isSome → (alGet mL k).isSome) :
    ∀ L mL mB, isRegionalLocale L = true →
       alGet (sets.foldl (fun acc p => setTranslations acc p.1 p.2) store) L = some mL →
       alGet (sets.foldl (fun acc p => setTranslations acc p.1 p.2) store)
         (baseOfLocale L) = some mB →
       ∀ k, (alGet mB k).isSome → (alGet mL k).isSome := by
  induction sets generalizing store with
  | nil => exact inv
  | cons s rest ih =>
      rw [List.foldl_cons]
      exact ih _ (setTranslations_superset store s.1 s.2 inv)

/-- C6 counterexample: base `fr` stored with `k=v1`, then regional `fr-CA`
stored with NO override for `k`, then `fr` re-sent with `k=v2`: the re-merge
keeps the regional's stale inherited `v1` on top of the new base, so
`fr-CA[k]=v1` while `fr[k]=v2` — the regional map is not the claimed
base-∪-regional-overrides union of the current maps. -/
theorem C6_counterexample :
    alGet (getTranslations c6store "fr-CA") "k" = some "v1" ∧
    alGet (getTranslations c6store "fr") "k" = some "v2" ∧
    (some "v1" : Option String) ≠ some "v2" :=
  ⟨by decide, by decide, by decide⟩

/-- C6 (amended): on any store built by `setTranslations` calls from empty,
every stored regional locale whose base is also stored contains every key of
the base map (key-superset); when a base locale is (re)stored, each stored
`base-*` variant becomes the new base map overwritten by the variant's
previously STORED map — so stored regional values (including values inherited
from an older base) dominate the new base; and `getTranslations` falls back
exact locale → base language → `"en"` → empty map. -/
theorem C6_regional_superset (sets : List (String × Tmap)) (L : String) (mL mB : Tmap)
    (hreg : isRegionalLocale L = true)
    (hL : alGet (applySets sets) L = some mL)
    (hB : alGet (applySets sets) (baseOfLocale L) = some mB) :
    (∀ k, (alGet mB k).isSome → (alGet mL k).isSome) ∧
    (∀ (store : TrStore) (loc R : String) (m old : Tmap),
       isRegionalLocale loc = false → alGet store R = some old →
       startsWithBaseDash loc R = true →
       alGet (setTranslations store loc m) R =
         some (tmerge (m.map (fun q => (q.1, decodeHTMLEntities q.2))) old)) ∧
    (∀ (store : TrStore) (loc : String) (mm : Tmap),
       alGet store loc = some mm → getTranslations store loc = mm) ∧
    (∀ (store : TrStore) (loc : String) (mm : Tmap),
       alGet store loc = none → isRegionalLocale loc = true →
       alGet store (baseOfLocale loc) = some mm → getTranslations store loc = mm) ∧
    (∀ (store : TrStore) (loc : String) (mm : Tmap),
       alGet store loc = none →
       (isRegionalLocale loc = true → alGet store (baseOfLocale loc) = none) →
       loc ≠ "en" → alGet store "en" = some mm → getTranslations store loc = mm) ∧
    (∀ (store : TrStore) (loc : String),
       alGet store loc = none →
       (isRegionalLocale loc = true → alGet store (baseOfLocale loc) = none) →
       (loc = "en" ∨ alGet store "en" = none) → getTranslations store loc = []) := by
  refine ⟨?_, ?_, ?_, ?_, ?_, ?_⟩
  · exact foldSets_superset sets []
      (by intro L' mL' mB' _ hL' _ _ _; simp [alGet] at hL') L mL mB hreg hL hB
  · intro store loc R m old hbase hold hsw
    rw [setTranslations_base store loc m hbase, alGet_setTr_map]
    have hRne : R ≠ loc := by
      intro heq
      rw [heq, startsWithBaseDash_self] at hsw
      exact Bool.noConfusion hsw
    rw [alGet_alSet_ne _ _ _ _ hRne, hold]
    simp [hsw]
  · intro store loc mm h1
    unfold getTranslations
    rw [h1]
  · intro store loc mm h1 h2 h3
    unfold getTranslations
    rw [h1]
    simp only [h2, if_true]
    rw [h3]
  · intro store loc mm h1 h2 hne h4
    have hvb : (if isRegionalLocale loc then alGet store (baseOfLocale loc) else none) =
        none := by
      by_cases hr : isRegionalLocale loc = true
      · rw [if_pos hr]
        exact h2 hr
      · rw [if_neg hr]
    unfold getTranslations
    rw [h1]
    simp only [hvb]
    rw [if_pos hne, h4]
  · intro store loc h1 h2 h3
    have hvb : (if isRegionalLocale loc then alGet store (baseOfLocale loc) else none) =
        none := by
      by_cases hr : isRegionalLocale loc = true
      · rw [if_pos hr]
        exact h2 hr
      · rw [if_neg hr]
    unfold getTranslations
    rw [h1]
    simp only [hvb]
    rcases h3 with rfl | hen
    · rw [if_neg (by simp)]
    · by_cases hle : loc = "en"
      · rw [if_neg (by simp [hle])]
      · rw [if_pos hle, hen]

/-- C6 witness: on the witness trace (base `fr`, regional `fr-CA`, base `fr`
re-sent) the stored `fr-CA` map contains every key of the stored `fr` map. -/
theorem C6_witness :
    ((∀ k, (alGet ((alGet (applySets c6WitnessSets) (baseOfLocale "fr-CA")).getD []) k).isSome →
       (alGet ((alGet (applySets c6WitnessSets) "fr-CA").getD []) k).isSome) ∧
     (∀ (store : TrStore) (loc R : String) (m old : Tmap),
        isRegionalLocale loc = false → alGet store R = some old →
        startsWithBaseDash loc R = true →
        alGet (setTranslations store loc m) R =
          some (tmerge (m.map (fun q => (q.1, decodeHTMLEntities q.2))) old)) ∧
     (∀ (store : TrStore) (loc : String) (mm : Tmap),
        alGet store loc = some mm → getTranslations store loc = mm) ∧
     (∀ (store : TrStore) (loc : String) (mm : Tmap),
        alGet store loc = none → isRegionalLocale loc = true →
        alGet store (baseOfLocale loc) = some mm → getTranslations store loc = mm) ∧
     (∀ (store : TrStore) (loc : String) (mm : Tmap),
        alGet store loc = none →
        (isRegionalLocale loc = true → alGet store (baseOfLocale loc) = none) →
        loc ≠ "en" → alGet store "en" = some mm → getTranslations store loc = mm) ∧
     (∀ (store : TrStore) (loc : String),
        alGet store loc = none →
        (isRegionalLocale loc = true → alGet store (baseOfLocale loc) = none) →
        (loc = "en" ∨ alGet store "en" = none) → getTranslations store loc = [])) :=
  C6_regional_superset c6WitnessSets "fr-CA"
    ((alGet (applySets c6WitnessSets) "fr-CA").getD [])
    ((alGet (applySets c6WitnessSets) (baseOfLocale "fr-CA")).getD [])
    (by decide) (by decide) (by decide)

end TrackerCore
